import Mathlib

/-!
Shallow embedding of the secure-auth-helper password core
(`passwordChecker.ts`, `data/commonPasswords.ts`, `data/advancedPatterns.ts`,
`passwordGenerator.ts`) and proofs about it.

Modelling conventions:
* Passwords are `List Char` (JS strings over the ASCII repertoire used here).
* JS floating-point arithmetic on penalties, keyspaces and crack times is
  modelled by exact rational arithmetic (`ℚ`).  All penalty factors are exact
  decimal constants, so the set of multiplicative factors that fire is
  captured exactly; only the final float rounding differs, which no claim
  depends on.
* `entropy = length * Math.log2(charsetSize)` is irrational in general, so the
  code's comparisons `entropy ⋈ t` are embedded as the extensionally equal
  integer comparisons `charsetSize ^ length ⋈ 2 ^ t` (valid for
  `charsetSize ≥ 1` since `x ↦ 2^x` is strictly monotone; the attainable
  charset sizes 10..94 and thresholds 40/60/80 are never close enough to a
  float-rounding boundary to flip a comparison).  For the empty string the
  code computes `0 * Math.log2 0 = NaN`, and every comparison against `NaN`
  is false; this is embedded by making every entropy comparison return
  `false` when `charsetSize = 0`.
* The secure randomness source (`crypto.randomBytes(4).readUInt32BE`) is
  modelled as an arbitrary stream `g : Nat → Nat` of raw draws together with
  a draw counter; `getSecureRandomInt max` at counter `k` is `g k % max`.
-/

/-! ## Character classes (the JS regexes [a-z], [A-Z], [0-9], [^A-Za-z0-9]) -/

def isLowerAlpha (c : Char) : Bool := 97 ≤ c.toNat && c.toNat ≤ 122

def isUpperAlpha (c : Char) : Bool := 65 ≤ c.toNat && c.toNat ≤ 90

def isDigitChar (c : Char) : Bool := 48 ≤ c.toNat && c.toNat ≤ 57

/-- The `[^A-Za-z0-9]` class used for "symbols" throughout the source. -/
def isSymbolChar (c : Char) : Bool := !(isLowerAlpha c || isUpperAlpha c || isDigitChar c)

/-- `String.prototype.toLowerCase` restricted to the ASCII repertoire. -/
def lowerChar (c : Char) : Char :=
  if isUpperAlpha c then Char.ofNat (c.toNat + 32) else c

def lowerStr (p : List Char) : List Char := p.map lowerChar

/-- Out-of-range reads yield NUL, which is in no character class used below
except `isSymbolChar`; every use is guarded so that this default is dead. -/
def charAt (s : List Char) (i : Nat) : Char := s.getD i (Char.ofNat 0)

/-- `s.substring i (i+len)` of the JS source (named to avoid clashing with Mathlib `slice`). -/
def substrAt (s : List Char) (i len : Nat) : List Char := (s.drop i).take len

/-- `hay.includes needle` (JS `String.prototype.includes`). -/
def containsB (hay needle : List Char) : Bool :=
  needle.isPrefixOf hay ||
    match hay with
    | [] => false
    | _ :: t => containsB t needle

/-- `getCharType` of `passwordChecker.ts` (symbol is the catch-all). -/
inductive CharType where
  | lower | upper | number | symbol
deriving DecidableEq

def getCharType (c : Char) : CharType :=
  if isLowerAlpha c then .lower
  else if isUpperAlpha c then .upper
  else if isDigitChar c then .number
  else .symbol

/-! ## Pattern library (`data/advancedPatterns.ts`, `data/commonPasswords.ts`) -/

/-- `normalizeLeetSpeak` applies, over the lowercased input, the global
replacements of `LEET_SUBSTITUTIONS` in insertion order
(a←@,4; e←3; i←1,!; o←0; s←5,$; t←7,+; l←1,|; g←9; b←6; z←2).
All substitutes are single non-letter characters and all replacement outputs
are letters that are never themselves substitutes, so the sequential global
replaces compose to this single character map; `'1'` maps to `'i'` because
the `i` entry is applied before the `l` entry. -/
def leetChar (c : Char) : Char :=
  if c = '@' then 'a' else if c = '4' then 'a'
  else if c = '3' then 'e'
  else if c = '1' then 'i' else if c = '!' then 'i'
  else if c = '0' then 'o'
  else if c = '5' then 's' else if c = '$' then 's'
  else if c = '7' then 't' else if c = '+' then 't'
  else if c = '|' then 'l'
  else if c = '9' then 'g'
  else if c = '6' then 'b'
  else if c = '2' then 'z'
  else c

def normalizeLeetSpeak (p : List Char) : List Char := (lowerStr p).map leetChar

/-- `EXTENDED_COMMON_PASSWORDS` (a JS `Set`; the literal has no duplicates, so
the list is the set in insertion order). -/
def EXTENDED_COMMON_PASSWORDS : List (List Char) :=
  ([ "password", "password1", "password123", "pass", "admin", "administrator",
     "root", "user", "guest", "test", "demo", "temp", "qwerty", "asdf",
     "zxcv", "admin123", "root123", "user123", "pass123", "temp123",
     "2023", "2022", "2021", "2020", "2019", "2018", "2017", "2016", "2015",
     "1990", "1991", "1992", "1993", "1994", "1995", "1996", "1997", "1998", "1999",
     "2000", "2001", "2002", "2003", "2004", "2005", "2006", "2007", "2008", "2009",
     "2010", "2011", "2012", "2013", "2014",
     "welcome", "login", "master", "secret", "super", "access", "computer",
     "internet", "system", "service", "letmein", "welcome1", "iloveyou",
     "princess", "rockyou", "sunshine", "shadow", "dragon", "monkey",
     "football", "baseball", "basketball", "soccer", "tennis", "hockey",
     "john", "mary", "david", "sarah", "michael", "jennifer", "robert",
     "linda", "william", "elizabeth", "james", "barbara", "charles",
     "susan", "joseph", "jessica", "thomas", "karen", "christopher",
     "nancy", "daniel", "betty", "matthew", "helen", "anthony", "sandra",
     "p@ssw0rd", "p@ssword", "passw0rd", "password!", "Password1",
     "admin!", "adm1n", "4dm1n", "r00t", "us3r", "t3st", "d3mo",
     "1234567890", "0987654321", "qwerty123", "asdf123", "zxcv123",
     "microsoft", "google", "apple", "facebook", "twitter", "amazon",
     "windows", "linux", "android", "iphone", "samsung", "oracle",
     "cisco", "intel", "nvidia", "adobe", "paypal", "netflix" ] :
    List String).map String.toList

/-- `COMMON_FIRST_NAMES` (a JS `Set`: iteration order is first-insertion
order with duplicates dropped; the literal's duplicates nancy, karen, betty,
helen, sandra, donna are already first-inserted earlier, so dropping them
from the tail reproduces the set's iteration order). -/
def COMMON_FIRST_NAMES : List (List Char) :=
  ([ "john", "mary", "david", "sarah", "michael", "jennifer", "robert",
     "linda", "william", "elizabeth", "james", "barbara", "charles",
     "susan", "joseph", "jessica", "thomas", "karen", "christopher",
     "nancy", "daniel", "betty", "matthew", "helen", "anthony", "sandra",
     "mark", "donna", "donald", "carol", "steven", "ruth", "kenneth",
     "sharon", "paul", "michelle", "andrew", "laura", "joshua", "emily",
     "kevin", "kimberly", "brian", "deborah", "george", "dorothy",
     "timothy", "lisa", "ronald", "jason", "edward",
     "jeffrey", "ryan", "jacob" ] : List String).map String.toList

def KEYBOARD_PATTERNS : List (List Char) :=
  ([ "qwertyuiop", "asdfghjkl", "zxcvbnm",
     "poiuytrewq", "lkjhgfdsa", "mnbvcxz",
     "qaz", "wsx", "edc", "rfv", "tgb", "yhn", "ujm", "ik", "ol", "p",
     "zaq", "xsw", "cde", "vfr", "bgt", "nhy", "mju", "ki", "lo",
     "qwe", "asd", "zxc", "wer", "sdf", "xcv", "ert", "dfg", "cvb",
     "rty", "fgh", "vbn", "tyu", "ghj", "bnm", "yui", "hjk", "nmk",
     "uio", "jkl", "iop", "kl",
     "123", "234", "345", "456", "567", "678", "789", "890",
     "987", "876", "765", "654", "543", "432", "321" ] :
    List String).map String.toList

def containsKeyboardPattern (p : List Char) : Bool :=
  KEYBOARD_PATTERNS.any fun pat =>
    containsB (lowerStr p) pat || containsB (lowerStr p) pat.reverse

/-! Word-boundary regex embedding.  A JS word character is `[A-Za-z0-9_]`;
`\b` holds at position `i` iff exactly one of the characters at `i-1` and `i`
is a word character (positions outside the string count as non-word). -/

def isWordChar (c : Char) : Bool :=
  isLowerAlpha c || isUpperAlpha c || isDigitChar c || c == '_'

def wordAt (s : List Char) (i : Nat) : Bool :=
  i < s.length && isWordChar (charAt s i)

def boundary (s : List Char) (i : Nat) : Bool :=
  (decide (0 < i) && wordAt s (i - 1)) != wordAt s i

def digitsAt (s : List Char) (i k : Nat) : Bool :=
  (List.range k).all fun j => isDigitChar (charAt s (i + j))

/-- `/\b(19|20)\d{2}\b/` -/
def dateYearPat (s : List Char) : Bool :=
  (List.range (s.length + 1)).any fun i =>
    boundary s i &&
    ((charAt s i == '1' && charAt s (i+1) == '9') ||
     (charAt s i == '2' && charAt s (i+1) == '0')) &&
    digitsAt s (i+2) 2 && boundary s (i+4)

def monthPairAt (s : List Char) (i : Nat) : Bool :=
  (charAt s i == '0' && isDigitChar (charAt s (i+1)) && charAt s (i+1) != '0') ||
  (charAt s i == '1' && (charAt s (i+1) == '0' || charAt s (i+1) == '1' || charAt s (i+1) == '2'))

def dayPairAt (s : List Char) (i : Nat) : Bool :=
  (charAt s i == '0' && isDigitChar (charAt s (i+1)) && charAt s (i+1) != '0') ||
  ((charAt s i == '1' || charAt s i == '2') && isDigitChar (charAt s (i+1))) ||
  (charAt s i == '3' && (charAt s (i+1) == '0' || charAt s (i+1) == '1'))

/-- `/\b(0[1-9]|1[0-2])(0[1-9]|[12]\d|3[01])\b/` (MMDD) -/
def mmddPat (s : List Char) : Bool :=
  (List.range (s.length + 1)).any fun i =>
    boundary s i && monthPairAt s i && dayPairAt s (i+2) && boundary s (i+4)

/-- `/\b(0[1-9]|[12]\d|3[01])(0[1-9]|1[0-2])\b/` (DDMM) -/
def ddmmPat (s : List Char) : Bool :=
  (List.range (s.length + 1)).any fun i =>
    boundary s i && dayPairAt s i && monthPairAt s (i+2) && boundary s (i+4)

/-- `/\b\d{1,2}X\d{1,2}X\d{2,4}\b/` for a delimiter `X` (the `/`, `-`, `.`
date shapes); regex backtracking over the bounded `\d{m,n}` counters is the
same as existence of a choice of counts. -/
def delimDatePat (sep : Char) (s : List Char) : Bool :=
  (List.range (s.length + 1)).any fun i =>
    boundary s i &&
    ([1, 2].any fun a =>
      digitsAt s i a && charAt s (i+a) == sep &&
      ([1, 2].any fun b =>
        digitsAt s (i+a+1) b && charAt s (i+a+1+b) == sep &&
        ([2, 3, 4].any fun c =>
          digitsAt s (i+a+b+2) c && boundary s (i+a+b+2+c))))

def containsDatePattern (p : List Char) : Bool :=
  dateYearPat p || mmddPat p || ddmmPat p ||
  delimDatePat '/' p || delimDatePat '-' p || delimDatePat '.' p

/-- `/\b\d{3}-?\d{3}-?\d{4}\b/` -/
def phoneDashPat (s : List Char) : Bool :=
  (List.range (s.length + 1)).any fun i =>
    boundary s i &&
    ([0, 1].any fun a =>
      digitsAt s i 3 && (a == 0 || charAt s (i+3) == '-') &&
      digitsAt s (i+3+a) 3 &&
      ([0, 1].any fun b =>
        (b == 0 || charAt s (i+6+a) == '-') &&
        digitsAt s (i+6+a+b) 4 && boundary s (i+10+a+b)))

/-- `/\b\(\d{3}\)\s?\d{3}-?\d{4}\b/`; `\s` is modelled by
`Char.isWhitespace` (space, tab, CR, LF — the whitespace actually reachable
here). -/
def phoneParenPat (s : List Char) : Bool :=
  (List.range (s.length + 1)).any fun i =>
    boundary s i && charAt s i == '(' && digitsAt s (i+1) 3 && charAt s (i+4) == ')' &&
    ([0, 1].any fun a =>
      (a == 0 || (charAt s (i+5)).isWhitespace) &&
      digitsAt s (i+5+a) 3 &&
      ([0, 1].any fun b =>
        (b == 0 || charAt s (i+8+a) == '-') &&
        digitsAt s (i+8+a+b) 4 && boundary s (i+12+a+b)))

/-- `/\b\d{10}\b/` -/
def phoneBarePat (s : List Char) : Bool :=
  (List.range (s.length + 1)).any fun i =>
    boundary s i && digitsAt s i 10 && boundary s (i+10)

def containsPhonePattern (p : List Char) : Bool :=
  phoneDashPat p || phoneParenPat p || phoneBarePat p

/-- `Math.max` on exact rationals, written as an `if` so that it reduces in
the kernel (provably equal to `max`, see `ratMax_eq_max`). -/
def ratMax (a b : ℚ) : ℚ := if a ≤ b then b else a

/-- `Math.min`, likewise. -/
def ratMin (a b : ℚ) : ℚ := if a ≤ b then a else b

def COMMON_WORDS_colors : List (List Char) :=
  (["red", "blue", "green", "yellow", "black", "white", "purple", "orange",
    "pink", "brown"] : List String).map String.toList

def COMMON_WORDS_animals : List (List Char) :=
  (["cat", "dog", "bird", "fish", "tiger", "lion", "bear", "wolf", "fox",
    "eagle"] : List String).map String.toList

def COMMON_WORDS_sports : List (List Char) :=
  (["football", "baseball", "basketball", "soccer", "tennis", "hockey",
    "golf", "swimming"] : List String).map String.toList

def COMMON_WORDS_months : List (List Char) :=
  (["january", "february", "march", "april", "may", "june", "july", "august",
    "september", "october", "november", "december"] : List String).map String.toList

def COMMON_WORDS_days : List (List Char) :=
  (["monday", "tuesday", "wednesday", "thursday", "friday", "saturday",
    "sunday"] : List String).map String.toList

/-- `Object.values(COMMON_WORDS)` in declaration order. -/
def COMMON_WORDS : List (List (List Char)) :=
  [COMMON_WORDS_colors, COMMON_WORDS_animals, COMMON_WORDS_sports,
   COMMON_WORDS_months, COMMON_WORDS_days]

/-- The inner loop of the topic-word check in `calculateAdvancedPatternPenalty`:
scan the words of one category and `break` (stop scanning this category) on
the first word that occurs in the lowercased password. -/
def scanCategory (lower : List Char) (pen : ℚ) : List (List Char) → ℚ
  | [] => pen
  | w :: ws => if containsB lower w then pen * (1/2) else scanCategory lower pen ws

/-- The outer loop over `Object.values(COMMON_WORDS)`; note the `break` in the
source exits only the inner word loop, so scanning continues with the next
category. -/
def scanTopics (lower : List Char) (pen : ℚ) : List (List (List Char)) → ℚ
  | [] => pen
  | cat :: cats => scanTopics lower (scanCategory lower pen cat) cats

/-- The first-name loop with its `break`: at most one ×0.3. -/
def scanNames (lower : List Char) (pen : ℚ) : List (List Char) → ℚ
  | [] => pen
  | n :: ns => if containsB lower n then pen * (3/10) else scanNames lower pen ns

/-- `calculateAdvancedPatternPenalty` of `data/advancedPatterns.ts`. -/
def calculateAdvancedPatternPenalty (p : List Char) : ℚ :=
  let normalized := normalizeLeetSpeak p
  let pen1 : ℚ := if normalized ≠ lowerStr p then 3/10 else 1
  let pen2 := if EXTENDED_COMMON_PASSWORDS.contains normalized then pen1 * (1/1000) else pen1
  let pen3 := if containsKeyboardPattern p then pen2 * (1/10) else pen2
  let pen4 := if containsDatePattern p then pen3 * (1/5) else pen3
  let pen5 := if containsPhonePattern p then pen4 * (1/10) else pen4
  let pen6 := scanTopics (lowerStr p) pen5 COMMON_WORDS
  let pen7 := scanNames (lowerStr p) pen6 COMMON_FIRST_NAMES
  ratMax (1/1000000) pen7

/-! ## Common-password lexicon (`data/commonPasswords.ts`) -/

/-- `COMMON_PASSWORDS` (JS `Set`; the literal has no duplicates). -/
def COMMON_PASSWORDS : List (List Char) :=
  ([ "123456", "1234567", "12345678", "123456789", "1234567890",
     "000000", "111111", "222222", "333333", "444444", "555555",
     "666666", "777777", "888888", "999999",
     "password", "password1", "password123", "admin", "administrator",
     "root", "user", "guest", "test", "demo",
     "qwerty", "qwertyuiop", "asdfgh", "asdfghjkl", "zxcvbn", "zxcvbnm",
     "azerty", "12345qwerty", "qwerty123",
     "welcome", "login", "master", "secret", "super", "access",
     "computer", "internet", "service", "system",
     "19700101", "19800101", "19900101", "20000101", "20100101", "20200101",
     "01011970", "01011980", "01011990", "01012000",
     "abc123", "123abc", "a1b2c3", "1q2w3e", "1q2w3e4r", "1qaz2wsx",
     "qwe123", "asd123", "zxc123",
     "john123", "admin123", "root123", "user123", "pass123", "temp123",
     "aaaaaaa", "aaaaaaaaaa",
     "letmein", "welcome1", "iloveyou", "princess", "rockyou", "12341234",
     "passw0rd", "p@ssw0rd", "p@ssword", "password!", "Password1",
     "Password123" ] : List String).map String.toList

/-- `isCommonPassword` of `data/commonPasswords.ts` (case-insensitive lookup). -/
def isCommonPassword (p : List Char) : Bool :=
  COMMON_PASSWORDS.contains (lowerStr p)

/-! ## Password checker (`passwordChecker.ts`) -/

/-- The charset size of `calculateEntropy` / `calculateKeyspace` /
`calculateSimpleEntropy` (all three compute it identically, testing the four
class regexes in the order lower, upper, digits, symbols). -/
def charsetSize (p : List Char) : Nat :=
  (if p.any isLowerAlpha then 26 else 0) +
  (if p.any isUpperAlpha then 26 else 0) +
  (if p.any isDigitChar then 10 else 0) +
  (if p.any isSymbolChar then 32 else 0)

/-- The comparison `entropy >= t` on the stored
`entropy = length * Math.log2(charsetSize)`; see the header for why this is
`charsetSize ^ length ≥ 2 ^ t` for non-empty inputs and `false` (NaN
comparison) when `charsetSize = 0`. -/
def entropyGe (p : List Char) (t : Nat) : Bool :=
  charsetSize p != 0 && decide (2 ^ t ≤ charsetSize p ^ p.length)

/-- The comparison `entropy < t` (false for the NaN entropy of the empty
string). -/
def entropyLt (p : List Char) (t : Nat) : Bool :=
  charsetSize p != 0 && decide (charsetSize p ^ p.length < 2 ^ t)

/-- `PasswordAnalysis` of `types.ts`.  The source stores the float `entropy`;
the embedding stores the outcome of every comparison the rest of the code
makes against it (`>= 40`, `>= 60`, `>= 80` in `calculateScore`, `< 40` and
`>= 60` in `generateSuggestions`). -/
structure PasswordAnalysis where
  length : Nat
  hasUppercase : Bool
  hasLowercase : Bool
  hasNumbers : Bool
  hasSymbols : Bool
  entropyGe40 : Bool
  entropyGe60 : Bool
  entropyGe80 : Bool
  entropyLt40 : Bool
  isCommonPassword : Bool
  varietyScore : Nat
deriving DecidableEq

/-- `analyzePassword` of `passwordChecker.ts`. -/
def analyzePassword (p : List Char) : PasswordAnalysis :=
  let hasUppercase := p.any isUpperAlpha
  let hasLowercase := p.any isLowerAlpha
  let hasNumbers := p.any isDigitChar
  let hasSymbols := p.any isSymbolChar
  { length := p.length
    hasUppercase := hasUppercase
    hasLowercase := hasLowercase
    hasNumbers := hasNumbers
    hasSymbols := hasSymbols
    entropyGe40 := entropyGe p 40
    entropyGe60 := entropyGe p 60
    entropyGe80 := entropyGe p 80
    entropyLt40 := entropyLt p 40
    isCommonPassword := isCommonPassword p
    varietyScore :=
      (if hasUppercase then 1 else 0) + (if hasLowercase then 1 else 0) +
      (if hasNumbers then 1 else 0) + (if hasSymbols then 1 else 0) }

/-- `/(.{1,3})\1{2,}/ || /(.)\1{2,}/`: some block of 1–3 non-newline
characters occurs at least three times contiguously (the single-character
regex is the `L = 1` case of the first). -/
def hasRepeatingPatterns (p : List Char) : Bool :=
  (List.range p.length).any fun i =>
    [1, 2, 3].any fun L =>
      decide (i + 3 * L ≤ p.length) &&
      (substrAt p i L).all (fun c => c != '\n') &&
      substrAt p i L == substrAt p (i + L) L &&
      substrAt p (i + L) L == substrAt p (i + 2 * L) L

def SEQUENCES : List (List Char) :=
  ([ "0123456789", "9876543210",
     "abcdefghijklmnopqrstuvwxyz", "zyxwvutsrqponmlkjihgfedcba",
     "qwertyuiop", "poiuytrewq", "asdfghjkl", "lkjhgfdsa" ] :
    List String).map String.toList

/-- `hasSequentialPattern`: some 3-character window of one of the 8 reference
sequences occurs in the lowercased password. -/
def hasSequentialPattern (p : List Char) : Bool :=
  SEQUENCES.any fun seq =>
    (List.range (seq.length - 2)).any fun i =>
      containsB (lowerStr p) (substrAt seq i 3)

/-- `Math.round` (half rounds toward +∞), as `ℚ → ℤ`. -/
def jsRound (q : ℚ) : ℤ := ⌊q + 1/2⌋

/-- `calculateScore` of `passwordChecker.ts`. -/
def calculateScore (a : PasswordAnalysis) (p : List Char) : ℚ :=
  if a.isCommonPassword then 0
  else
    let s : ℚ :=
      (if 8 ≤ a.length then 1 else 0) + (if 12 ≤ a.length then 1 else 0) +
      (if 16 ≤ a.length then 1/2 else 0) +
      (if 2 ≤ a.varietyScore then 1/2 else 0) +
      (if 3 ≤ a.varietyScore then 1/2 else 0) +
      (if 4 ≤ a.varietyScore then 1 else 0) +
      (if a.entropyGe40 then 1/2 else 0) + (if a.entropyGe60 then 1/2 else 0) +
      (if a.entropyGe80 then 1/2 else 0) -
      (if hasRepeatingPatterns p then 1/2 else 0) -
      (if hasSequentialPattern p then 1/2 else 0)
    ratMax 0 (ratMin 5 ((jsRound (s * 2) : ℚ) / 2))

/-- `getVerdict` of `passwordChecker.ts`. -/
def getVerdict (score : ℚ) : String :=
  if score ≤ 1 then "weak"
  else if score ≤ 5/2 then "medium"
  else if score ≤ 4 then "strong"
  else "very strong"

/-- `generateSuggestions` of `passwordChecker.ts` (order-preserving). -/
def generateSuggestions (a : PasswordAnalysis) : List String :=
  let l := (if a.isCommonPassword then ["Avoid common passwords - use a unique combination"] else [])
  let l := l ++ (if a.length < 8 then ["Use at least 8 characters"]
                 else if a.length < 12 then ["Consider using 12+ characters for better security"]
                 else [])
  let l := l ++ (if !a.hasUppercase then ["Add uppercase letters (A-Z)"] else [])
  let l := l ++ (if !a.hasLowercase then ["Add lowercase letters (a-z)"] else [])
  let l := l ++ (if !a.hasNumbers then ["Add numbers (0-9)"] else [])
  let l := l ++ (if !a.hasSymbols then ["Add special characters (!@#$%^&*)"] else [])
  let l := l ++ (if a.varietyScore < 3 then ["Mix different character types for complexity"] else [])
  let l := l ++ (if a.entropyLt40 then ["Increase randomness - avoid predictable patterns"] else [])
  if l.isEmpty && a.entropyGe60 then
    l ++ ["Great password! Consider using a password manager for unique passwords across all accounts"]
  else l

/-- `extractPotentialBaseWords`: every `EXTENDED_COMMON_PASSWORDS` entry of
length ≥ 4 occurring in the leet-normalized lowercased password, in set
iteration order (`normalizeLeetSpeak` already lowercases, so the source's
extra `toLowerCase` is absorbed). -/
def extractPotentialBaseWords (p : List Char) : List (List Char) :=
  EXTENDED_COMMON_PASSWORDS.filter fun w =>
    decide (4 ≤ w.length) && containsB (normalizeLeetSpeak p) w

/-- `Math.max(...baseWords.map(w => w.length))` (the call sites guard against
the empty list, where the fold's 0 differs from JS `-Infinity` but is never
used). -/
def maxWordLength (ws : List (List Char)) : Nat :=
  ws.foldl (fun m w => max m w.length) 0

/-- `calculateHybridAttackPenalty`.  `variations ≥ 0` always holds because
every base word is a substring of the equal-length normalization of `p`. -/
def calculateHybridAttackPenalty (p : List Char) : ℚ :=
  let baseWords := extractPotentialBaseWords p
  if baseWords ≠ [] then
    ratMin (1/10) ((1/2) ^ (p.length - maxWordLength baseWords))
  else 1

/-- The alternation count of `calculateStatisticalPenalty`: positions
`i ∈ [1, length-2]` with `type (i-1) = type (i+1) ≠ type i`. -/
def alternatingCount (p : List Char) : Nat :=
  (List.range' 1 (p.length - 2)).countP fun i =>
    getCharType (charAt p (i - 1)) == getCharType (charAt p (i + 1)) &&
    getCharType (charAt p (i - 1)) != getCharType (charAt p i)

/-- The inner position scan of the repeated-substring loop: some adjacent
repeated block of length `len` (`break` exits only this scan). -/
def hasAdjacentRepeat (p : List Char) (len : Nat) : Bool :=
  (List.range (p.length + 1 - 2 * len)).any fun i =>
    substrAt p i len == substrAt p (i + len) len

/-- The outer loop `for (len = 2; len <= floor(length/2); len++)` of
`calculateStatisticalPenalty`; each length with an adjacent repeat
multiplies by 0.2 once. -/
def repeatScan (p : List Char) (pen : ℚ) (len : Nat) : ℚ :=
  if len ≤ p.length / 2 then
    repeatScan p (if hasAdjacentRepeat p len then pen * (1/5) else pen) (len + 1)
  else pen
termination_by p.length / 2 + 1 - len

/-- `calculateStatisticalPenalty` of `passwordChecker.ts`. -/
def calculateStatisticalPenalty (p : List Char) : ℚ :=
  if p.length < 3 then 1
  else
    let pen : ℚ := if (p.length : ℚ) * (2/5) < (alternatingCount p : ℚ) then 3/10 else 1
    ratMax (1/1000) (repeatScan p pen 2)

/-- The charset size reconstructed from analysis flags, as
`calculateKeyspace` does (equal to `charsetSize p` for
`a = analyzePassword p`). -/
def analysisCharsetSize (a : PasswordAnalysis) : Nat :=
  (if a.hasLowercase then 26 else 0) + (if a.hasUppercase then 26 else 0) +
  (if a.hasNumbers then 10 else 0) + (if a.hasSymbols then 32 else 0)

/-- `calculateKeyspace` of `passwordChecker.ts`. -/
def calculateKeyspace (a : PasswordAnalysis) (p : List Char) : ℚ :=
  if a.isCommonPassword || EXTENDED_COMMON_PASSWORDS.contains (lowerStr p) then 1
  else if EXTENDED_COMMON_PASSWORDS.contains (normalizeLeetSpeak p) then
    ratMin 1000 ((p.length : ℚ) * 10)
  else
    let advancedPenalty := calculateAdvancedPatternPenalty p
    let pen1 := if hasRepeatingPatterns p then advancedPenalty * (1/20) else advancedPenalty
    let pen2 := if hasSequentialPattern p then pen1 * (1/20) else pen1
    let pen3 := pen2 * calculateHybridAttackPenalty p
    let pen4 := pen3 * calculateStatisticalPenalty p
    ratMax 1 ((analysisCharsetSize a : ℚ) ^ p.length * pen4)

/-- `EXTENDED_COMMON_PASSWORDS.size` (the literal has no duplicates, so this
is the list length). -/
def extendedSetSize : Nat := EXTENDED_COMMON_PASSWORDS.length

/-- `calculateSmartAttackKeyspace` of `passwordChecker.ts`.
`Math.pow(1000, length / 3)` is embedded as the mathematically equal
`10 ^ length`. -/
def calculateSmartAttackKeyspace (p : List Char) (baseKeyspace : ℚ) : ℚ :=
  let baseWords := extractPotentialBaseWords p
  if baseWords ≠ [] then
    ratMin baseKeyspace ((extendedSetSize : ℚ) * (100 : ℚ) ^ (p.length - maxWordLength baseWords))
  else if containsDatePattern p || containsPhonePattern p then
    ratMin baseKeyspace ((10 : ℚ) ^ p.length * 1000)
  else if containsKeyboardPattern p then
    ratMin baseKeyspace ((10 : ℚ) ^ p.length)
  else baseKeyspace

/-- `formatCrackTime` of `passwordChecker.ts`.  Note the seconds branch
pluralizes on the raw value while the later branches pluralize on the
rounded value, exactly as the source does. -/
def formatCrackTime (seconds : ℚ) : String :=
  if seconds < 1 then "instantly"
  else if seconds < 60 then
    toString (jsRound seconds) ++ " second" ++ (if seconds = 1 then "" else "s")
  else
    let minutes := seconds / 60
    if minutes < 60 then
      toString (jsRound minutes) ++ " minute" ++ (if jsRound minutes = 1 then "" else "s")
    else
      let hours := minutes / 60
      if hours < 24 then
        toString (jsRound hours) ++ " hour" ++ (if jsRound hours = 1 then "" else "s")
      else
        let days := hours / 24
        if days < 30 then
          toString (jsRound days) ++ " day" ++ (if jsRound days = 1 then "" else "s")
        else
          let months := days / 30
          if months < 12 then
            toString (jsRound months) ++ " month" ++ (if jsRound months = 1 then "" else "s")
          else
            let years := months / 12
            if years < 1000 then
              toString (jsRound years) ++ " year" ++ (if jsRound years = 1 then "" else "s")
            else if years < 1000000 then
              toString (jsRound (years / 1000)) ++ " thousand year" ++
                (if jsRound (years / 1000) = 1 then "" else "s")
            else if years < 1000000000 then
              toString (jsRound (years / 1000000)) ++ " million year" ++
                (if jsRound (years / 1000000) = 1 then "" else "s")
            else
              toString (jsRound (years / 1000000000)) ++ " billion year" ++
                (if jsRound (years / 1000000000) = 1 then "" else "s")

structure CrackTimeEstimate where
  seconds : ℚ
  humanReadable : String
  attackScenario : String
deriving DecidableEq

structure CrackTimes where
  online : CrackTimeEstimate
  offline : CrackTimeEstimate
  offlineFast : CrackTimeEstimate
deriving DecidableEq

/-- `calculateCrackTime` of `passwordChecker.ts` (rates 1e3, 1e11, 1e13). -/
def calculateCrackTime (a : PasswordAnalysis) (p : List Char) : CrackTimes :=
  let keyspace := calculateKeyspace a p
  let smartAttackKeyspace := calculateSmartAttackKeyspace p keyspace
  let avgGuesses := ratMax 1 (smartAttackKeyspace / 2)
  let onlineSeconds := avgGuesses / 1000
  let offlineSeconds := avgGuesses / 100000000000
  let offlineFastSeconds := avgGuesses / 10000000000000
  { online := ⟨onlineSeconds, formatCrackTime onlineSeconds, "online"⟩
    offline := ⟨offlineSeconds, formatCrackTime offlineSeconds, "offline"⟩
    offlineFast := ⟨offlineFastSeconds, formatCrackTime offlineFastSeconds, "offline_fast"⟩ }

structure PasswordStrengthResult where
  score : ℚ
  verdict : String
  suggestions : List String
  crackTime : CrackTimes
deriving DecidableEq

/-- `checkPassword` of `passwordChecker.ts`. -/
def checkPassword (p : List Char) : PasswordStrengthResult :=
  let analysis := analyzePassword p
  { score := calculateScore analysis p
    verdict := getVerdict (calculateScore analysis p)
    suggestions := generateSuggestions analysis
    crackTime := calculateCrackTime analysis p }

/-! ## Password generator (`passwordGenerator.ts`) -/

def LOWERCASE : List Char := "abcdefghijklmnopqrstuvwxyz".toList

def UPPERCASE : List Char := "ABCDEFGHIJKLMNOPQRSTUVWXYZ".toList

def NUMBERS : List Char := "0123456789".toList

def SYMBOLS : List Char := "!@#$%^&*()_+-=[]\x7b\x7d|;:,.<>?".toList

/-- `GeneratePasswordOptions` of `types.ts` (all fields optional; lengths are
modelled as integers, the only values the spec admits). -/
structure GeneratePasswordOptions where
  length : Option Int := none
  numbers : Option Bool := none
  symbols : Option Bool := none
  uppercase : Option Bool := none
  lowercase : Option Bool := none
  excludeSimilar : Option Bool := none

inductive GenError where
  | invalidLength
  | noCharacterClassSelected
deriving DecidableEq

/-- The destructuring defaults of `generatePassword`. -/
def resolvedLength (o : GeneratePasswordOptions) : Int := o.length.getD 12

def resolvedNumbers (o : GeneratePasswordOptions) : Bool := o.numbers.getD true

def resolvedSymbols (o : GeneratePasswordOptions) : Bool := o.symbols.getD true

def resolvedUppercase (o : GeneratePasswordOptions) : Bool := o.uppercase.getD true

def resolvedLowercase (o : GeneratePasswordOptions) : Bool := o.lowercase.getD true

def resolvedExcludeSimilar (o : GeneratePasswordOptions) : Bool := o.excludeSimilar.getD false

/-- `this.LOWERCASE.replace(/[0O1lI]/g, '')` when `excludeSimilar` (only `l`
is actually present). -/
def lowerPool (excludeSimilar : Bool) : List Char :=
  if excludeSimilar then LOWERCASE.filter (fun c => !(['0', 'O', '1', 'l', 'I'].contains c))
  else LOWERCASE

/-- `this.UPPERCASE.replace(/[0O1lI]/g, '')` when `excludeSimilar`. -/
def upperPool (excludeSimilar : Bool) : List Char :=
  if excludeSimilar then UPPERCASE.filter (fun c => !(['0', 'O', '1', 'l', 'I'].contains c))
  else UPPERCASE

/-- `this.NUMBERS.replace(/[0O1l]/g, '')` when `excludeSimilar`. -/
def numberPool (excludeSimilar : Bool) : List Char :=
  if excludeSimilar then NUMBERS.filter (fun c => !(['0', 'O', '1', 'l'].contains c))
  else NUMBERS

/-- `this.SYMBOLS.replace(/[|]/g, '')` when `excludeSimilar`. -/
def symbolPool (excludeSimilar : Bool) : List Char :=
  if excludeSimilar then SYMBOLS.filter (fun c => c != '|')
  else SYMBOLS

/-- `getRandomChar`: index `getSecureRandomInt(charset.length) = g k % length`
at draw counter `k`; the NUL default is dead because every pool indexed is
non-empty. -/
def getRandomChar (g : Nat → Nat) (charset : List Char) (k : Nat) : Char :=
  charset.getD (g k % charset.length) (Char.ofNat 0)

/-- One `if (class) { charset += set; requiredChars.push(getRandomChar set) }`
block, threading `(charset, requiredChars, draw counter)`. -/
def addClass (g : Nat → Nat) (enabled : Bool) (pool : List Char)
    (st : List Char × List Char × Nat) : List Char × List Char × Nat :=
  if enabled then (st.1 ++ pool, st.2.1 ++ [getRandomChar g pool st.2.2], st.2.2 + 1)
  else st

/-- The final `excludeSimilar` pass over the combined charset: the loop over
`SIMILAR_CHARS = "0O1lI|"` removes the first five characters literally;
`new RegExp('|')` matches the empty string, so the `'|'` iteration is a
no-op (`'|'` was already removed from the symbol pool by `/[|]/g`). -/
def removeSimilarCombined (charset : List Char) : List Char :=
  charset.filter fun c => !(['0', 'O', '1', 'l', 'I'].contains c)

/-- The fill loop `for (i = requiredChars.length; i < length; i++)`,
appending `n` draws from `charset`. -/
def drawN (g : Nat → Nat) (charset : List Char) : Nat → Nat → List Char × Nat
  | 0, k => ([], k)
  | n + 1, k =>
    let c := getRandomChar g charset k
    let r := drawN g charset n (k + 1)
    (c :: r.1, r.2)

/-- `array.set i b |>.set j a` with both reads of the source array, i.e. the
swap `[array[i], array[j]] = [array[j], array[i]]`. -/
def listSwap (l : List Char) (i j : Nat) : List Char :=
  match l[i]?, l[j]? with
  | some a, some b => (l.set i b).set j a
  | _, _ => l

/-- The Fisher–Yates loop of `shuffleString`, from index `i` down to 1
(`j = getSecureRandomInt (i + 1)`). -/
def fyAux (g : Nat → Nat) : List Char → Nat → Nat → List Char × Nat
  | arr, 0, k => (arr, k)
  | arr, i + 1, k => fyAux g (listSwap arr (i + 1) (g k % (i + 2))) i (k + 1)

/-- `shuffleString` of `passwordGenerator.ts`. -/
def shuffleString (g : Nat → Nat) (s : List Char) (k : Nat) : List Char × Nat :=
  fyAux g s (s.length - 1) k

/-- The four charset/required-character building blocks of `generatePassword`
in source order (lowercase, uppercase, numbers, symbols), threading
`(charset, requiredChars, draw counter)` from `([], [], k)`. -/
def classChain (o : GeneratePasswordOptions) (g : Nat → Nat) (k : Nat) :
    List Char × List Char × Nat :=
  addClass g (resolvedSymbols o) (symbolPool (resolvedExcludeSimilar o))
    (addClass g (resolvedNumbers o) (numberPool (resolvedExcludeSimilar o))
      (addClass g (resolvedUppercase o) (upperPool (resolvedExcludeSimilar o))
        (addClass g (resolvedLowercase o) (lowerPool (resolvedExcludeSimilar o)) ([], [], k))))

/-- The combined charset after the optional `SIMILAR_CHARS` removal pass. -/
def genCharset (o : GeneratePasswordOptions) (g : Nat → Nat) (k : Nat) : List Char :=
  if resolvedExcludeSimilar o then removeSimilarCombined (classChain o g k).1
  else (classChain o g k).1

/-- The success path of `generatePassword` (everything after the two
validation checks). -/
def generateBody (o : GeneratePasswordOptions) (g : Nat → Nat) (k : Nat) :
    List Char × Nat :=
  let st := classChain o g k
  let fill := drawN g (genCharset o g k) (resolvedLength o - (st.2.1.length : Int)).toNat st.2.2
  shuffleString g (st.2.1 ++ fill.1) fill.2

/-- `generatePassword` of `passwordGenerator.ts`; `throw` is modelled by
`Except.error`, and the pair carries the next draw-counter state. -/
def generatePassword (o : GeneratePasswordOptions) (g : Nat → Nat) (k : Nat) :
    Except GenError (List Char × Nat) :=
  if resolvedLength o < 4 then .error .invalidLength
  else if !resolvedNumbers o && !resolvedSymbols o && !resolvedUppercase o &&
      !resolvedLowercase o then
    .error .noCharacterClassSelected
  else
    .ok (generateBody o g k)

/-- The `(length, charsetSize)` key on which `calculateSimpleEntropy`
compares candidates. -/
def simpleEntropyKey (p : List Char) : Nat × Nat := (p.length, charsetSize p)

/-- `currentEntropy > bestEntropy` on simple entropies
`length * Math.log2(charsetSize)`; for positive charsets this is
`charsetSize_b ^ length_b < charsetSize_c ^ length_c`, and a zero charset
makes the entropy NaN, whose comparisons are false. -/
def simpleEntropyGt (cur best : List Char) : Bool :=
  charsetSize cur != 0 && charsetSize best != 0 &&
    decide (charsetSize best ^ best.length < charsetSize cur ^ cur.length)

/-- `passwords.reduce((best, current) => currentEntropy > bestEntropy ?
current : best)`: a left fold seeded with the first element, keeping the
current best on ties. -/
def reduceBest (best : List Char) : List (List Char) → List Char
  | [] => best
  | c :: cs => reduceBest (if simpleEntropyGt c best then c else best) cs

/-- `generateStrongPassword` of `passwordGenerator.ts`: 5 candidates with the
same options, then the strictly-greater-entropy reduction. -/
def generateStrongPassword (o : GeneratePasswordOptions) (g : Nat → Nat) (k : Nat) :
    Except GenError (List Char × Nat) :=
  match generatePassword o g k with
  | .error e => .error e
  | .ok (c1, k1) =>
    match generatePassword o g k1 with
    | .error e => .error e
    | .ok (c2, k2) =>
      match generatePassword o g k2 with
      | .error e => .error e
      | .ok (c3, k3) =>
        match generatePassword o g k3 with
        | .error e => .error e
        | .ok (c4, k4) =>
          match generatePassword o g k4 with
          | .error e => .error e
          | .ok (c5, k5) => .ok (reduceBest c1 [c2, c3, c4, c5], k5)

/-! ## Definitions transcribing the spec's words, for comparison with the
source embedding (used only to state and refute refinement claims). -/

/-- Spec variant of the topic-word scan: "topic-word substring found ×0.5
(first match only, then stop scanning further categories)" — the ×0.5 is
applied at most once across all categories. -/
def specScanTopics (lower : List Char) (pen : ℚ) : List (List (List Char)) → ℚ
  | [] => pen
  | cat :: cats =>
    if cat.any (containsB lower) then pen * (1/2)
    else specScanTopics lower pen cats

/-- `calculateAdvancedPatternPenalty` as the spec describes it, differing
from the source only in the topic-word scan. -/
def specAdvancedPatternPenalty (p : List Char) : ℚ :=
  let normalized := normalizeLeetSpeak p
  let pen1 : ℚ := if normalized ≠ lowerStr p then 3/10 else 1
  let pen2 := if EXTENDED_COMMON_PASSWORDS.contains normalized then pen1 * (1/1000) else pen1
  let pen3 := if containsKeyboardPattern p then pen2 * (1/10) else pen2
  let pen4 := if containsDatePattern p then pen3 * (1/5) else pen3
  let pen5 := if containsPhonePattern p then pen4 * (1/10) else pen4
  let pen6 := specScanTopics (lowerStr p) pen5 COMMON_WORDS
  let pen7 := scanNames (lowerStr p) pen6 COMMON_FIRST_NAMES
  ratMax (1/1000000) pen7

/-- The lengths `2 .. length/2` scanned by the repeated-substring loop. -/
def repeatLengthRange (p : List Char) : List Nat :=
  List.range' 2 (p.length / 2 - 1)

/-- Spec variant of the repeated-substring scan of the statistical penalty:
"on first match anywhere, multiply by 0.2 and stop scanning" — a single ×0.2
regardless of how many block lengths have adjacent repeats. -/
def specStatisticalPenalty (p : List Char) : ℚ :=
  if p.length < 3 then 1
  else
    let pen : ℚ := if (p.length : ℚ) * (2/5) < (alternatingCount p : ℚ) then 3/10 else 1
    let pen := if (repeatLengthRange p).any (hasAdjacentRepeat p) then pen * (1/5) else pen
    ratMax (1/1000) pen

/-- Spec variant of the analysis of a password whose charset size is 0:
"for an empty password, charsetSize is 0 and entropy must be treated as 0
(not computed via log of 0)" — so `entropy < 40` is true and the `≥`
comparisons are false. -/
def specZeroEntropyAnalysis (p : List Char) : PasswordAnalysis :=
  { analyzePassword p with
    entropyGe40 := false, entropyGe60 := false, entropyGe80 := false,
    entropyLt40 := true }

/-! ## Derived notions used to state the claims -/

/-- Number of topic categories with at least one word occurring in the
lowercased password. -/
def matchedCategoryCount (lower : List Char) : Nat :=
  COMMON_WORDS.countP fun cat => cat.any (containsB lower)

/-- Number of block lengths `2 .. length/2` having an adjacent repeated
block. -/
def repeatLengthCount (p : List Char) : Nat :=
  (repeatLengthRange p).countP (hasAdjacentRepeat p)

/-- Some character of class `t` (in the sense of `getCharType`) occurs in
`p`. -/
def classPresent (p : List Char) (t : CharType) : Bool :=
  p.any fun c => getCharType c == t

/-- Every character of `s` belongs to a character class already present in
`p` (the hypothesis of the appended-characters monotonicity claim). -/
def appendedFromPresentClasses (p s : List Char) : Bool :=
  s.all fun c => classPresent p (getCharType c)

def anyClassEnabled (o : GeneratePasswordOptions) : Bool :=
  resolvedNumbers o || resolvedSymbols o || resolvedUppercase o || resolvedLowercase o

def allClassesDisabled (o : GeneratePasswordOptions) : Bool :=
  !resolvedNumbers o && !resolvedSymbols o && !resolvedUppercase o && !resolvedLowercase o

/-- The charset size `calculateSimpleEntropy` yields on any string produced
by `generatePassword` with options `o` (class regexes evaluated on the
resolved flags). -/
def optionCharsetSize (o : GeneratePasswordOptions) : Nat :=
  (if resolvedLowercase o then 26 else 0) + (if resolvedUppercase o then 26 else 0) +
  (if resolvedNumbers o then 10 else 0) + (if resolvedSymbols o then 32 else 0)

/-- The six visually-ambiguous characters `SIMILAR_CHARS = "0O1lI|"`. -/
def SIMILAR_CHARS : List Char := ['0', 'O', '1', 'l', 'I', '|']

/-- Number of enabled classes = number of required characters drawn. -/
def reqCount (o : GeneratePasswordOptions) : Nat :=
  (if resolvedLowercase o then 1 else 0) + (if resolvedUppercase o then 1 else 0) +
  (if resolvedNumbers o then 1 else 0) + (if resolvedSymbols o then 1 else 0)

/-- Decidable equality for generator results (needed to evaluate concrete
runs). -/
instance {ε α : Type} [DecidableEq ε] [DecidableEq α] : DecidableEq (Except ε α) := fun a b =>
  match a, b with
  | .error x, .error y =>
    if h : x = y then .isTrue (by rw [h]) else .isFalse (fun hc => h (Except.error.inj hc))
  | .ok x, .ok y =>
    if h : x = y then .isTrue (by rw [h]) else .isFalse (fun hc => h (Except.ok.inj hc))
  | .error _, .ok _ => .isFalse Except.noConfusion
  | .ok _, .error _ => .isFalse Except.noConfusion

/-! ## Helper lemmas -/

theorem ratMax_eq_max (a b : ℚ) : ratMax a b = max a b := (max_def a b).symm

theorem ratMin_eq_min (a b : ℚ) : ratMin a b = min a b := (min_def a b).symm

theorem ratMin_le_left (a b : ℚ) : ratMin a b ≤ a := by
  rw [ratMin_eq_min]; exact min_le_left a b

theorem le_ratMax_left (a b : ℚ) : a ≤ ratMax a b := by
  rw [ratMax_eq_max]; exact le_max_left a b

/-- The word loop over one category applies ×0.5 exactly when some word of
the category occurs. -/
theorem scanCategory_eq (lower : List Char) (pen : ℚ) (ws : List (List Char)) :
    scanCategory lower pen ws =
      if ws.any (containsB lower) then pen * (1/2) else pen := by
  induction ws with
  | nil => simp [scanCategory]
  | cons w ws ih =>
    by_cases h : containsB lower w <;> simp [scanCategory, h, ih]

theorem scanTopics_eq (lower : List Char) (cats : List (List (List Char))) :
    ∀ pen : ℚ, scanTopics lower pen cats =
      pen * (1/2) ^ (cats.countP fun cat => cat.any (containsB lower)) := by
  induction cats with
  | nil => intro pen; simp [scanTopics]
  | cons cat cats ih =>
    intro pen
    rw [scanTopics, ih, scanCategory_eq, List.countP_cons]
    by_cases h : cat.any (containsB lower)
    · simp only [h, if_true, if_pos]
      rw [pow_succ]
      ring
    · simp only [h, if_false]
      simp

/-- The first-name loop applies ×0.3 exactly when some name occurs. -/
theorem scanNames_eq (lower : List Char) (pen : ℚ) (ns : List (List Char)) :
    scanNames lower pen ns =
      if ns.any (containsB lower) then pen * (3/10) else pen := by
  induction ns with
  | nil => simp [scanNames]
  | cons n ns ih =>
    by_cases h : containsB lower n <;> simp [scanNames, h, ih]

/-- Multiplicative decomposition of `calculateAdvancedPatternPenalty`: one
factor per detector, ×0.5 per matched topic category, at most one ×0.3 for
first names, floored at 1e-6. -/
theorem calculateAdvancedPatternPenalty_eq (p : List Char) :
    calculateAdvancedPatternPenalty p =
      ratMax (1/1000000)
        ((if normalizeLeetSpeak p ≠ lowerStr p then (3/10 : ℚ) else 1) *
         (if EXTENDED_COMMON_PASSWORDS.contains (normalizeLeetSpeak p) then (1/1000 : ℚ) else 1) *
         (if containsKeyboardPattern p then (1/10 : ℚ) else 1) *
         (if containsDatePattern p then (1/5 : ℚ) else 1) *
         (if containsPhonePattern p then (1/10 : ℚ) else 1) *
         (1/2) ^ matchedCategoryCount (lowerStr p) *
         (if COMMON_FIRST_NAMES.any (containsB (lowerStr p)) then (3/10 : ℚ) else 1)) := by
  simp only [calculateAdvancedPatternPenalty]
  rw [scanNames_eq, scanTopics_eq]
  rw [matchedCategoryCount]
  split_ifs <;> ring_nf

/-- The smart-attack keyspace never exceeds the base keyspace. -/
theorem calculateSmartAttackKeyspace_le (p : List Char) (b : ℚ) :
    calculateSmartAttackKeyspace p b ≤ b := by
  rw [calculateSmartAttackKeyspace]
  split
  · exact ratMin_le_left _ _
  · split
    · exact ratMin_le_left _ _
    · split
      · exact ratMin_le_left _ _
      · exact le_rfl

/-- The outer repeated-substring loop multiplies by 0.2 once per block
length (from `len` up to `length/2`) that has an adjacent repeat. -/
theorem repeatScan_eq (p : List Char) :
    ∀ fuel len pen, p.length / 2 + 1 - len = fuel →
      repeatScan p pen len =
        pen * (1/5) ^ ((List.range' len fuel).countP (hasAdjacentRepeat p)) := by
  intro fuel
  induction fuel with
  | zero =>
    intro len pen h
    rw [repeatScan, if_neg (by omega)]
    simp
  | succ n ih =>
    intro len pen h
    rw [repeatScan, if_pos (by omega : len ≤ p.length / 2), ih (len + 1) _ (by omega),
      List.range'_succ, List.countP_cons]
    by_cases hA : hasAdjacentRepeat p len
    · simp only [hA, if_true, if_pos]
      rw [pow_succ]
      ring
    · simp only [hA, if_false]
      simp

/-! ## Claim C3 — topic-word penalty scope -/

/-- C3, corrected: the ×0.5 topic-word factor is applied once per matched
category (the `break` exits only the word loop of one category), so the
topic-word scan multiplies by `0.5 ^ (number of matched categories)`. -/
theorem claim_C3_topic_per_category (lower : List Char) (pen : ℚ) :
    scanTopics lower pen COMMON_WORDS = pen * (1/2) ^ matchedCategoryCount lower :=
  scanTopics_eq lower COMMON_WORDS pen

/-- C3 counterexample: `"bluedog"` matches both a color (`blue`) and an
animal (`dog`); no other penalty factor fires, and the composite penalty is
0.25, which the claim says can never arise from two topic categories. -/
theorem claim_C3_counterexample :
    COMMON_WORDS_colors.any (containsB (lowerStr "bluedog".toList)) = true ∧
    COMMON_WORDS_animals.any (containsB (lowerStr "bluedog".toList)) = true ∧
    calculateAdvancedPatternPenalty "bluedog".toList = 1/4 ∧
    specAdvancedPatternPenalty "bluedog".toList = 1/2 := by
  have hne : ¬(normalizeLeetSpeak "bluedog".toList ≠ lowerStr "bluedog".toList) := by decide
  have h2 : EXTENDED_COMMON_PASSWORDS.contains (normalizeLeetSpeak "bluedog".toList) = false := by
    decide
  have h3 : containsKeyboardPattern "bluedog".toList = false := by decide
  have h4 : containsDatePattern "bluedog".toList = false := by decide
  have h5 : containsPhonePattern "bluedog".toList = false := by decide
  have h7 : COMMON_FIRST_NAMES.any (containsB (lowerStr "bluedog".toList)) = false := by decide
  refine ⟨by decide, by decide, ?_, ?_⟩
  · rw [calculateAdvancedPatternPenalty_eq]
    have h6 : matchedCategoryCount (lowerStr "bluedog".toList) = 2 := by decide
    simp only [hne, h2, h3, h4, h5, h6, h7]
    norm_num [ratMax]
  · simp only [specAdvancedPatternPenalty]
    have h6 : COMMON_WORDS_colors.any (containsB (lowerStr "bluedog".toList)) = true := by decide
    rw [scanNames_eq, h7]
    simp only [COMMON_WORDS, specScanTopics, h6, hne, h2, h3, h4, h5]
    norm_num [ratMax]

/-! ## Claim C5 — repeated-substring penalty scope -/

/-- C5, corrected: the ×0.2 repeated-block factor is applied once per block
length in `2 .. length/2` that has an adjacent repeat (the `break` exits
only the position scan of one length). -/
theorem claim_C5_repeat_per_length (p : List Char) :
    calculateStatisticalPenalty p =
      if p.length < 3 then 1
      else ratMax (1/1000)
        ((if (p.length : ℚ) * (2/5) < (alternatingCount p : ℚ) then 3/10 else 1) *
          (1/5) ^ repeatLengthCount p) := by
  simp only [calculateStatisticalPenalty]
  split
  · rfl
  · rw [repeatScan_eq p (p.length / 2 + 1 - 2) 2 _ rfl]
    rfl

/-- C5 counterexample: `"aaaaaa"` has adjacent repeated blocks of lengths 2
and 3, and its statistical penalty is 0.2 · 0.2 = 0.04, not the single 0.2
the claim requires. -/
theorem claim_C5_counterexample :
    hasAdjacentRepeat "aaaaaa".toList 2 = true ∧
    hasAdjacentRepeat "aaaaaa".toList 3 = true ∧
    calculateStatisticalPenalty "aaaaaa".toList = 1/25 ∧
    specStatisticalPenalty "aaaaaa".toList = 1/5 := by
  have hlen : ("aaaaaa".toList).length = 6 := by decide
  have halt : alternatingCount "aaaaaa".toList = 0 := by decide
  refine ⟨by decide, by decide, ?_, ?_⟩
  · rw [claim_C5_repeat_per_length]
    have hcnt : repeatLengthCount "aaaaaa".toList = 2 := by decide
    rw [hcnt, hlen, halt]
    norm_num [ratMax]
  · simp only [specStatisticalPenalty]
    have hany : (repeatLengthRange "aaaaaa".toList).any (hasAdjacentRepeat "aaaaaa".toList) = true := by
      decide
    rw [hlen, halt, hany]
    norm_num [ratMax]

/-! ## Claim C4 — lexicon ×0.001 factor -/

theorem iteFactor_nonneg (P : Prop) [Decidable P] (v : ℚ) (hv : 0 ≤ v) :
    0 ≤ if P then v else 1 := by
  split_ifs
  · linarith
  · norm_num

theorem iteFactor_le_one (P : Prop) [Decidable P] (v : ℚ) (hv : v ≤ 1) :
    (if P then v else 1) ≤ 1 := by
  split_ifs
  · linarith
  · norm_num

/-- C4, corrected: the ×0.001 factor fires on an exact match of the whole
leet-normalized password against the extended lexicon, and then the whole
composite penalty is at most 0.001 (all other factors are ≤ 1 and the floor
is 1e-6). -/
theorem claim_C4_exact_match_penalty (p : List Char)
    (h : EXTENDED_COMMON_PASSWORDS.contains (normalizeLeetSpeak p) = true) :
    calculateAdvancedPatternPenalty p ≤ 1/1000 := by
  rw [calculateAdvancedPatternPenalty_eq, if_pos h, ratMax_eq_max]
  apply max_le (by norm_num)
  have b1 := iteFactor_le_one (normalizeLeetSpeak p ≠ lowerStr p) (3/10 : ℚ) (by norm_num)
  have b1n := iteFactor_nonneg (normalizeLeetSpeak p ≠ lowerStr p) (3/10 : ℚ) (by norm_num)
  have b3 := iteFactor_le_one (containsKeyboardPattern p = true) (1/10 : ℚ) (by norm_num)
  have b3n := iteFactor_nonneg (containsKeyboardPattern p = true) (1/10 : ℚ) (by norm_num)
  have b4 := iteFactor_le_one (containsDatePattern p = true) (1/5 : ℚ) (by norm_num)
  have b4n := iteFactor_nonneg (containsDatePattern p = true) (1/5 : ℚ) (by norm_num)
  have b5 := iteFactor_le_one (containsPhonePattern p = true) (1/10 : ℚ) (by norm_num)
  have b5n := iteFactor_nonneg (containsPhonePattern p = true) (1/10 : ℚ) (by norm_num)
  have b7 := iteFactor_le_one (COMMON_FIRST_NAMES.any (containsB (lowerStr p)) = true)
    (3/10 : ℚ) (by norm_num)
  have b7n := iteFactor_nonneg (COMMON_FIRST_NAMES.any (containsB (lowerStr p)) = true)
    (3/10 : ℚ) (by norm_num)
  have bp : ((1:ℚ)/2) ^ matchedCategoryCount (lowerStr p) ≤ 1 :=
    pow_le_one₀ (by norm_num) (by norm_num)
  have bpn : (0:ℚ) ≤ (1/2) ^ matchedCategoryCount (lowerStr p) :=
    pow_nonneg (by norm_num) _
  have hR : (if normalizeLeetSpeak p ≠ lowerStr p then (3/10 : ℚ) else 1) *
      (if containsKeyboardPattern p = true then (1/10 : ℚ) else 1) *
      (if containsDatePattern p = true then (1/5 : ℚ) else 1) *
      (if containsPhonePattern p = true then (1/10 : ℚ) else 1) *
      ((1/2) ^ matchedCategoryCount (lowerStr p)) *
      (if COMMON_FIRST_NAMES.any (containsB (lowerStr p)) = true then (3/10 : ℚ) else 1) ≤ 1 := by
    apply mul_le_one₀ _ b7n b7
    apply mul_le_one₀ _ bpn bp
    apply mul_le_one₀ _ b5n b5
    apply mul_le_one₀ _ b4n b4
    exact mul_le_one₀ b1 b3n b3
  calc (if normalizeLeetSpeak p ≠ lowerStr p then (3/10 : ℚ) else 1) * (1/1000) *
        (if containsKeyboardPattern p = true then (1/10 : ℚ) else 1) *
        (if containsDatePattern p = true then (1/5 : ℚ) else 1) *
        (if containsPhonePattern p = true then (1/10 : ℚ) else 1) *
        ((1/2) ^ matchedCategoryCount (lowerStr p)) *
        (if COMMON_FIRST_NAMES.any (containsB (lowerStr p)) = true then (3/10 : ℚ) else 1)
      = (1/1000) *
        ((if normalizeLeetSpeak p ≠ lowerStr p then (3/10 : ℚ) else 1) *
         (if containsKeyboardPattern p = true then (1/10 : ℚ) else 1) *
         (if containsDatePattern p = true then (1/5 : ℚ) else 1) *
         (if containsPhonePattern p = true then (1/10 : ℚ) else 1) *
         ((1/2) ^ matchedCategoryCount (lowerStr p)) *
         (if COMMON_FIRST_NAMES.any (containsB (lowerStr p)) = true then (3/10 : ℚ) else 1)) := by
        ring
    _ ≤ (1/1000) * 1 := mul_le_mul_of_nonneg_left hR (by norm_num)
    _ = 1/1000 := by ring

/-- C4 witness: the leet variant `p@ssw0rd` normalizes exactly to `password`
and receives the ×0.001 factor. -/
theorem claim_C4_witness :
    EXTENDED_COMMON_PASSWORDS.contains (normalizeLeetSpeak "p@ssw0rd".toList) = true ∧
    calculateAdvancedPatternPenalty "p@ssw0rd".toList ≤ 1/1000 :=
  ⟨by decide, claim_C4_exact_match_penalty _ (by decide)⟩

/-- C4 counterexample: `"xpasswordx"` contains the length-≥4 lexicon entries
`password` and `pass` as substrings, but its composite penalty is 0.1 (the
keyboard factor alone: the single letter `p` is a listed "pattern"), not at
most the 0.001 the claim requires for any lexicon substring. -/
theorem claim_C4_counterexample :
    extractPotentialBaseWords "xpasswordx".toList ≠ [] ∧
    calculateAdvancedPatternPenalty "xpasswordx".toList = 1/10 ∧
    ¬ calculateAdvancedPatternPenalty "xpasswordx".toList ≤ 1/1000 := by
  have hne : ¬(normalizeLeetSpeak "xpasswordx".toList ≠ lowerStr "xpasswordx".toList) := by decide
  have h2 : EXTENDED_COMMON_PASSWORDS.contains (normalizeLeetSpeak "xpasswordx".toList) = false := by
    decide
  have h3 : containsKeyboardPattern "xpasswordx".toList = true := by decide
  have h4 : containsDatePattern "xpasswordx".toList = false := by decide
  have h5 : containsPhonePattern "xpasswordx".toList = false := by decide
  have h6 : matchedCategoryCount (lowerStr "xpasswordx".toList) = 0 := by decide
  have h7 : COMMON_FIRST_NAMES.any (containsB (lowerStr "xpasswordx".toList)) = false := by decide
  have hval : calculateAdvancedPatternPenalty "xpasswordx".toList = 1/10 := by
    rw [calculateAdvancedPatternPenalty_eq]
    simp only [hne, h2, h3, h4, h5, h6, h7]
    norm_num [ratMax]
  refine ⟨by decide, hval, by rw [hval]; norm_num⟩

/-! ## Claim C2 — entropy of the empty password -/

/-- C2 counterexample: for the empty input the code's NaN entropy makes
`entropy < 40` false, so the low-entropy suggestion is not emitted, whereas
treating entropy as 0 (as the claim states) would emit it. -/
theorem claim_C2_counterexample :
    generateSuggestions (analyzePassword "".toList) ≠
      generateSuggestions (specZeroEntropyAnalysis "".toList) ∧
    "Increase randomness - avoid predictable patterns" ∈
      generateSuggestions (specZeroEntropyAnalysis "".toList) ∧
    "Increase randomness - avoid predictable patterns" ∉
      generateSuggestions (analyzePassword "".toList) := by
  refine ⟨by decide, by decide, by decide⟩

/-- C2, corrected: for the empty string the stored entropy is
`0 * Math.log2 0 = NaN`, whose comparisons are all false; the score still
floors at 0 with verdict "weak", but the "Increase randomness" suggestion is
not emitted (entropy 0 would emit it). -/
theorem claim_C2_empty_password :
    (analyzePassword "".toList).entropyLt40 = false ∧
    (analyzePassword "".toList).entropyGe40 = false ∧
    (checkPassword "".toList).score = 0 ∧
    (checkPassword "".toList).verdict = "weak" ∧
    (checkPassword "".toList).suggestions =
      ["Use at least 8 characters", "Add uppercase letters (A-Z)",
       "Add lowercase letters (a-z)", "Add numbers (0-9)",
       "Add special characters (!@#$%^&*)",
       "Mix different character types for complexity"] := by
  have ha : analyzePassword "".toList =
      { length := 0, hasUppercase := false, hasLowercase := false, hasNumbers := false,
        hasSymbols := false, entropyGe40 := false, entropyGe60 := false, entropyGe80 := false,
        entropyLt40 := false, isCommonPassword := false, varietyScore := 0 } := by decide
  have hr : hasRepeatingPatterns "".toList = false := by decide
  have hs : hasSequentialPattern "".toList = false := by decide
  have hcs : calculateScore (analyzePassword "".toList) "".toList = 0 := by
    rw [ha]
    simp only [calculateScore, hr, hs]
    norm_num [ratMax, ratMin, jsRound]
  refine ⟨by decide, by decide, ?_, ?_, by decide⟩
  · simp only [checkPassword]
    exact hcs
  · simp only [checkPassword]
    rw [hcs]
    norm_num [getVerdict]

/-! ## Claim C1 — common passwords -/

/-- C1, confirmed: a password in the common lexicon (case-insensitively)
scores 0 with verdict "weak", and its online crack time reads "instantly"
(keyspace 1, average guesses 1, 0.001 s). -/
theorem claim_C1_common_weak_instantly (p : List Char) (h : isCommonPassword p = true) :
    (checkPassword p).score = 0 ∧ (checkPassword p).verdict = "weak" ∧
    (checkPassword p).crackTime.online.humanReadable = "instantly" := by
  have hA : (analyzePassword p).isCommonPassword = true := by
    simp only [analyzePassword]
    exact h
  have hcs : calculateScore (analyzePassword p) p = 0 := by
    rw [calculateScore, if_pos hA]
  have hks : calculateKeyspace (analyzePassword p) p = 1 := by
    rw [calculateKeyspace, if_pos]
    simp [hA]
  have hsm := calculateSmartAttackKeyspace_le p 1
  have havg : ratMax 1 (calculateSmartAttackKeyspace p 1 / 2) = 1 := by
    rw [ratMax_eq_max]
    exact max_eq_left (by linarith)
  refine ⟨?_, ?_, ?_⟩
  · simp only [checkPassword]
    exact hcs
  · simp only [checkPassword]
    rw [hcs]
    norm_num [getVerdict]
  · simp only [checkPassword, calculateCrackTime, hks, havg]
    rw [formatCrackTime, if_pos (by norm_num)]

/-- C1 witness at the common password `"password"`. -/
theorem claim_C1_witness :
    isCommonPassword "password".toList = true ∧
    ((checkPassword "password".toList).score = 0 ∧
     (checkPassword "password".toList).verdict = "weak" ∧
     (checkPassword "password".toList).crackTime.online.humanReadable = "instantly") :=
  ⟨by decide, claim_C1_common_weak_instantly _ (by decide)⟩

/-! ## Generator lemmas -/

theorem listSwap_length (l : List Char) (i j : Nat) :
    (listSwap l i j).length = l.length := by
  rw [listSwap]
  split
  · simp
  · rfl

theorem countP_listSwap (q : Char → Bool) (l : List Char) (i j : Nat) :
    (listSwap l i j).countP q = l.countP q := by
  rw [listSwap]
  split
  case _ a b hi hj =>
    obtain ⟨hilt, hia⟩ := List.getElem?_eq_some_iff.mp hi
    obtain ⟨hjlt, hjb⟩ := List.getElem?_eq_some_iff.mp hj
    have hj1 : j < (l.set i b).length := by simpa using hjlt
    rw [List.countP_set _ _ _ _ hj1, List.countP_set _ _ _ _ hilt]
    rw [List.getElem_set]
    have hbi : (if q a = true then 1 else 0) ≤ l.countP q := by
      have hx := List.boole_getElem_le_countP q l i hilt
      rwa [hia] at hx
    have hbj : (if q b = true then 1 else 0) ≤ l.countP q := by
      have hx := List.boole_getElem_le_countP q l j hjlt
      rwa [hjb] at hx
    by_cases hij : i = j
    · subst hij
      have hab : a = b := by rw [hi] at hj; exact Option.some.inj hj
      subst hab
      rw [if_pos rfl, hia]
      omega
    · rw [if_neg hij, hia, hjb]
      omega
  · rfl

theorem fyAux_countP (g : Nat → Nat) (q : Char → Bool) :
    ∀ (i : Nat) (l : List Char) (k : Nat), ((fyAux g l i k).1).countP q = l.countP q := by
  intro i
  induction i with
  | zero => intro l k; rfl
  | succ n ih =>
    intro l k
    rw [fyAux, ih, countP_listSwap]

theorem fyAux_length (g : Nat → Nat) :
    ∀ (i : Nat) (l : List Char) (k : Nat), ((fyAux g l i k).1).length = l.length := by
  intro i
  induction i with
  | zero => intro l k; rfl
  | succ n ih =>
    intro l k
    rw [fyAux, ih, listSwap_length]

theorem shuffleString_countP (g : Nat → Nat) (s : List Char) (k : Nat) (q : Char → Bool) :
    ((shuffleString g s k).1).countP q = s.countP q :=
  fyAux_countP g q _ s k

theorem shuffleString_length (g : Nat → Nat) (s : List Char) (k : Nat) :
    ((shuffleString g s k).1).length = s.length :=
  fyAux_length g _ s k

/-- `countP`-equal lists agree on `any`. -/
theorem any_eq_of_countP_eq {l₁ l₂ : List Char} (q : Char → Bool)
    (h : l₁.countP q = l₂.countP q) : l₁.any q = l₂.any q := by
  cases ha : l₁.any q <;> cases hb : l₂.any q
  · rfl
  · rw [List.any_eq_false] at ha
    have h0 : l₁.countP q = 0 := List.countP_eq_zero.mpr ha
    rw [List.any_eq_true] at hb
    obtain ⟨x, hx, hqx⟩ := hb
    have : 0 < l₂.countP q := List.countP_pos_iff.mpr ⟨x, hx, hqx⟩
    omega
  · rw [List.any_eq_false] at hb
    have h0 : l₂.countP q = 0 := List.countP_eq_zero.mpr hb
    rw [List.any_eq_true] at ha
    obtain ⟨x, hx, hqx⟩ := ha
    have : 0 < l₁.countP q := List.countP_pos_iff.mpr ⟨x, hx, hqx⟩
    omega
  · rfl

theorem shuffleString_any (g : Nat → Nat) (s : List Char) (k : Nat) (q : Char → Bool) :
    ((shuffleString g s k).1).any q = s.any q :=
  any_eq_of_countP_eq q (shuffleString_countP g s k q)

theorem shuffleString_mem (g : Nat → Nat) (s : List Char) (k : Nat) (c : Char) :
    c ∈ (shuffleString g s k).1 ↔ c ∈ s := by
  have h := shuffleString_any g s k (fun x => x == c)
  constructor
  · intro hc
    have : ((shuffleString g s k).1).any (fun x => x == c) = true := by
      rw [List.any_eq_true]; exact ⟨c, hc, by simp⟩
    rw [h, List.any_eq_true] at this
    obtain ⟨x, hx, hxc⟩ := this
    rwa [show x = c from by simpa using hxc] at hx
  · intro hc
    have : s.any (fun x => x == c) = true := by
      rw [List.any_eq_true]; exact ⟨c, hc, by simp⟩
    rw [← h, List.any_eq_true] at this
    obtain ⟨x, hx, hxc⟩ := this
    rwa [show x = c from by simpa using hxc] at hx

theorem getRandomChar_mem (g : Nat → Nat) (cs : List Char) (k : Nat) (h : cs ≠ []) :
    getRandomChar g cs k ∈ cs := by
  rw [getRandomChar]
  have hlen : 0 < cs.length := List.length_pos.mpr h
  have hidx : g k % cs.length < cs.length := Nat.mod_lt _ hlen
  rw [List.getD_eq_getElem?_getD, List.getElem?_eq_getElem hidx]
  exact List.getElem_mem hidx

theorem drawN_length (g : Nat → Nat) (cs : List Char) :
    ∀ n k, ((drawN g cs n k).1).length = n := by
  intro n
  induction n with
  | zero => intro k; rfl
  | succ m ih => intro k; rw [drawN]; simp [ih]

theorem drawN_mem (g : Nat → Nat) (cs : List Char) (h : cs ≠ []) :
    ∀ n k c, c ∈ (drawN g cs n k).1 → c ∈ cs := by
  intro n
  induction n with
  | zero => intro k c hc; simp [drawN] at hc
  | succ m ih =>
    intro k c hc
    rw [drawN] at hc
    simp only [List.mem_cons] at hc
    rcases hc with hc | hc
    · rw [hc]; exact getRandomChar_mem g cs k h
    · exact ih (k + 1) c hc

theorem addClass_req_length (g : Nat → Nat) (e : Bool) (pool : List Char)
    (st : List Char × List Char × Nat) :
    ((addClass g e pool st).2.1).length = st.2.1.length + (if e then 1 else 0) := by
  rw [addClass]
  split <;> simp

theorem addClass_charset_mem (g : Nat → Nat) (e : Bool) (pool : List Char)
    (st : List Char × List Char × Nat) (c : Char) (hc : c ∈ (addClass g e pool st).1) :
    c ∈ st.1 ∨ (e = true ∧ c ∈ pool) := by
  rw [addClass] at hc
  split at hc
  · next he =>
    rcases List.mem_append.mp hc with h | h
    · exact Or.inl h
    · exact Or.inr ⟨he, h⟩
  · exact Or.inl hc

theorem addClass_req_mem (g : Nat → Nat) (e : Bool) (pool : List Char)
    (st : List Char × List Char × Nat) (c : Char) (hpool : pool ≠ [])
    (hc : c ∈ (addClass g e pool st).2.1) :
    c ∈ st.2.1 ∨ (e = true ∧ c ∈ pool) := by
  rw [addClass] at hc
  split at hc
  · next he =>
    rcases List.mem_append.mp hc with h | h
    · exact Or.inl h
    · simp only [List.mem_singleton] at h
      exact Or.inr ⟨he, h ▸ getRandomChar_mem g pool st.2.2 hpool⟩
  · exact Or.inl hc

theorem addClass_req_mono (g : Nat → Nat) (e : Bool) (pool : List Char)
    (st : List Char × List Char × Nat) (c : Char) (hc : c ∈ st.2.1) :
    c ∈ (addClass g e pool st).2.1 := by
  rw [addClass]
  split
  · exact List.mem_append.mpr (Or.inl hc)
  · exact hc

theorem addClass_req_has (g : Nat → Nat) (pool : List Char)
    (st : List Char × List Char × Nat) (hpool : pool ≠ []) :
    ∃ c ∈ (addClass g true pool st).2.1, c ∈ pool := by
  refine ⟨getRandomChar g pool st.2.2, ?_, getRandomChar_mem g pool st.2.2 hpool⟩
  rw [addClass, if_pos rfl]
  simp

/-! Pool facts (decided on both values of `excludeSimilar`). -/

theorem lowerPool_ne_nil (es : Bool) : lowerPool es ≠ [] := by cases es <;> decide

theorem upperPool_ne_nil (es : Bool) : upperPool es ≠ [] := by cases es <;> decide

theorem numberPool_ne_nil (es : Bool) : numberPool es ≠ [] := by cases es <;> decide

theorem symbolPool_ne_nil (es : Bool) : symbolPool es ≠ [] := by cases es <;> decide

theorem lowerPool_classes (es : Bool) : ∀ c ∈ lowerPool es,
    isLowerAlpha c = true ∧ isUpperAlpha c = false ∧ isDigitChar c = false ∧
    isSymbolChar c = false := by cases es <;> decide

theorem upperPool_classes (es : Bool) : ∀ c ∈ upperPool es,
    isLowerAlpha c = false ∧ isUpperAlpha c = true ∧ isDigitChar c = false ∧
    isSymbolChar c = false := by cases es <;> decide

theorem numberPool_classes (es : Bool) : ∀ c ∈ numberPool es,
    isLowerAlpha c = false ∧ isUpperAlpha c = false ∧ isDigitChar c = true ∧
    isSymbolChar c = false := by cases es <;> decide

theorem symbolPool_classes (es : Bool) : ∀ c ∈ symbolPool es,
    isLowerAlpha c = false ∧ isUpperAlpha c = false ∧ isDigitChar c = false ∧
    isSymbolChar c = true := by cases es <;> decide

theorem addClass_charset_mono (g : Nat → Nat) (e : Bool) (pool : List Char)
    (st : List Char × List Char × Nat) (c : Char) (hc : c ∈ st.1) :
    c ∈ (addClass g e pool st).1 := by
  rw [addClass]
  split
  · exact List.mem_append.mpr (Or.inl hc)
  · exact hc

theorem addClass_charset_of_pool (g : Nat → Nat) (pool : List Char)
    (st : List Char × List Char × Nat) (c : Char) (hc : c ∈ pool) :
    c ∈ (addClass g true pool st).1 := by
  rw [addClass, if_pos rfl]
  exact List.mem_append.mpr (Or.inr hc)

theorem classChain_req_length (o : GeneratePasswordOptions) (g : Nat → Nat) (k : Nat) :
    ((classChain o g k).2.1).length = reqCount o := by
  rw [classChain, addClass_req_length, addClass_req_length, addClass_req_length,
    addClass_req_length]
  simp [reqCount]

theorem classChain_charset_mem (o : GeneratePasswordOptions) (g : Nat → Nat) (k : Nat)
    (c : Char) (hc : c ∈ (classChain o g k).1) :
    (resolvedLowercase o = true ∧ c ∈ lowerPool (resolvedExcludeSimilar o)) ∨
    (resolvedUppercase o = true ∧ c ∈ upperPool (resolvedExcludeSimilar o)) ∨
    (resolvedNumbers o = true ∧ c ∈ numberPool (resolvedExcludeSimilar o)) ∨
    (resolvedSymbols o = true ∧ c ∈ symbolPool (resolvedExcludeSimilar o)) := by
  rw [classChain] at hc
  rcases addClass_charset_mem _ _ _ _ _ hc with hc | h
  · rcases addClass_charset_mem _ _ _ _ _ hc with hc | h
    · rcases addClass_charset_mem _ _ _ _ _ hc with hc | h
      · rcases addClass_charset_mem _ _ _ _ _ hc with hc | h
        · simp at hc
        · exact Or.inl h
      · exact Or.inr (Or.inl h)
    · exact Or.inr (Or.inr (Or.inl h))
  · exact Or.inr (Or.inr (Or.inr h))

theorem classChain_req_mem (o : GeneratePasswordOptions) (g : Nat → Nat) (k : Nat)
    (c : Char) (hc : c ∈ (classChain o g k).2.1) :
    (resolvedLowercase o = true ∧ c ∈ lowerPool (resolvedExcludeSimilar o)) ∨
    (resolvedUppercase o = true ∧ c ∈ upperPool (resolvedExcludeSimilar o)) ∨
    (resolvedNumbers o = true ∧ c ∈ numberPool (resolvedExcludeSimilar o)) ∨
    (resolvedSymbols o = true ∧ c ∈ symbolPool (resolvedExcludeSimilar o)) := by
  rw [classChain] at hc
  rcases addClass_req_mem _ _ _ _ _ (symbolPool_ne_nil _) hc with hc | h
  · rcases addClass_req_mem _ _ _ _ _ (numberPool_ne_nil _) hc with hc | h
    · rcases addClass_req_mem _ _ _ _ _ (upperPool_ne_nil _) hc with hc | h
      · rcases addClass_req_mem _ _ _ _ _ (lowerPool_ne_nil _) hc with hc | h
        · simp at hc
        · exact Or.inl h
      · exact Or.inr (Or.inl h)
    · exact Or.inr (Or.inr (Or.inl h))
  · exact Or.inr (Or.inr (Or.inr h))

theorem classChain_req_has_lower (o : GeneratePasswordOptions) (g : Nat → Nat) (k : Nat)
    (h : resolvedLowercase o = true) :
    ∃ c ∈ (classChain o g k).2.1, c ∈ lowerPool (resolvedExcludeSimilar o) := by
  rw [classChain]
  obtain ⟨c, hc, hcp⟩ :=
    addClass_req_has g (lowerPool (resolvedExcludeSimilar o)) ([], [], k)
      (lowerPool_ne_nil _)
  rw [h]
  exact ⟨c, addClass_req_mono _ _ _ _ _ (addClass_req_mono _ _ _ _ _
    (addClass_req_mono _ _ _ _ _ hc)), hcp⟩

theorem classChain_req_has_upper (o : GeneratePasswordOptions) (g : Nat → Nat) (k : Nat)
    (h : resolvedUppercase o = true) :
    ∃ c ∈ (classChain o g k).2.1, c ∈ upperPool (resolvedExcludeSimilar o) := by
  rw [classChain, h]
  obtain ⟨c, hc, hcp⟩ :=
    addClass_req_has g (upperPool (resolvedExcludeSimilar o))
      (addClass g (resolvedLowercase o) (lowerPool (resolvedExcludeSimilar o)) ([], [], k))
      (upperPool_ne_nil _)
  exact ⟨c, addClass_req_mono _ _ _ _ _ (addClass_req_mono _ _ _ _ _ hc), hcp⟩

theorem classChain_req_has_number (o : GeneratePasswordOptions) (g : Nat → Nat) (k : Nat)
    (h : resolvedNumbers o = true) :
    ∃ c ∈ (classChain o g k).2.1, c ∈ numberPool (resolvedExcludeSimilar o) := by
  rw [classChain, h]
  obtain ⟨c, hc, hcp⟩ :=
    addClass_req_has g (numberPool (resolvedExcludeSimilar o))
      (addClass g (resolvedUppercase o) (upperPool (resolvedExcludeSimilar o))
        (addClass g (resolvedLowercase o) (lowerPool (resolvedExcludeSimilar o)) ([], [], k)))
      (numberPool_ne_nil _)
  exact ⟨c, addClass_req_mono _ _ _ _ _ hc, hcp⟩

theorem classChain_req_has_symbol (o : GeneratePasswordOptions) (g : Nat → Nat) (k : Nat)
    (h : resolvedSymbols o = true) :
    ∃ c ∈ (classChain o g k).2.1, c ∈ symbolPool (resolvedExcludeSimilar o) := by
  rw [classChain, h]
  obtain ⟨c, hc, hcp⟩ :=
    addClass_req_has g (symbolPool (resolvedExcludeSimilar o))
      (addClass g (resolvedNumbers o) (numberPool (resolvedExcludeSimilar o))
        (addClass g (resolvedUppercase o) (upperPool (resolvedExcludeSimilar o))
          (addClass g (resolvedLowercase o) (lowerPool (resolvedExcludeSimilar o)) ([], [], k))))
      (symbolPool_ne_nil _)
  exact ⟨c, hc, hcp⟩

theorem classChain_has_lowerPool (o : GeneratePasswordOptions) (g : Nat → Nat) (k : Nat)
    (h : resolvedLowercase o = true) (x : Char)
    (hx : x ∈ lowerPool (resolvedExcludeSimilar o)) : x ∈ (classChain o g k).1 := by
  rw [classChain]
  apply addClass_charset_mono
  apply addClass_charset_mono
  apply addClass_charset_mono
  rw [h]
  exact addClass_charset_of_pool _ _ _ _ hx

theorem classChain_has_upperPool (o : GeneratePasswordOptions) (g : Nat → Nat) (k : Nat)
    (h : resolvedUppercase o = true) (x : Char)
    (hx : x ∈ upperPool (resolvedExcludeSimilar o)) : x ∈ (classChain o g k).1 := by
  rw [classChain]
  apply addClass_charset_mono
  apply addClass_charset_mono
  rw [h]
  exact addClass_charset_of_pool _ _ _ _ hx

theorem classChain_has_numberPool (o : GeneratePasswordOptions) (g : Nat → Nat) (k : Nat)
    (h : resolvedNumbers o = true) (x : Char)
    (hx : x ∈ numberPool (resolvedExcludeSimilar o)) : x ∈ (classChain o g k).1 := by
  rw [classChain]
  apply addClass_charset_mono
  rw [h]
  exact addClass_charset_of_pool _ _ _ _ hx

theorem classChain_has_symbolPool (o : GeneratePasswordOptions) (g : Nat → Nat) (k : Nat)
    (h : resolvedSymbols o = true) (x : Char)
    (hx : x ∈ symbolPool (resolvedExcludeSimilar o)) : x ∈ (classChain o g k).1 := by
  rw [classChain, h]
  exact addClass_charset_of_pool _ _ _ _ hx

theorem lowerPool_keep :
    ∃ x ∈ lowerPool true, (!(['0', 'O', '1', 'l', 'I'].contains x)) = true := by decide

theorem upperPool_keep :
    ∃ x ∈ upperPool true, (!(['0', 'O', '1', 'l', 'I'].contains x)) = true := by decide

theorem numberPool_keep :
    ∃ x ∈ numberPool true, (!(['0', 'O', '1', 'l', 'I'].contains x)) = true := by decide

theorem symbolPool_keep :
    ∃ x ∈ symbolPool true, (!(['0', 'O', '1', 'l', 'I'].contains x)) = true := by decide

theorem genCharset_mem (o : GeneratePasswordOptions) (g : Nat → Nat) (k : Nat)
    (c : Char) (hc : c ∈ genCharset o g k) :
    (resolvedLowercase o = true ∧ c ∈ lowerPool (resolvedExcludeSimilar o)) ∨
    (resolvedUppercase o = true ∧ c ∈ upperPool (resolvedExcludeSimilar o)) ∨
    (resolvedNumbers o = true ∧ c ∈ numberPool (resolvedExcludeSimilar o)) ∨
    (resolvedSymbols o = true ∧ c ∈ symbolPool (resolvedExcludeSimilar o)) := by
  rw [genCharset] at hc
  split at hc
  · exact classChain_charset_mem o g k c (List.mem_filter.mp hc).1
  · exact classChain_charset_mem o g k c hc

theorem genCharset_ne_nil (o : GeneratePasswordOptions) (g : Nat → Nat) (k : Nat)
    (hen : anyClassEnabled o = true) : genCharset o g k ≠ [] := by
  rw [anyClassEnabled] at hen
  have hchain : ∃ x, x ∈ (classChain o g k).1 ∧
      (resolvedExcludeSimilar o = true → (!(['0', 'O', '1', 'l', 'I'].contains x)) = true) := by
    rcases Bool.or_eq_true_iff.mp hen with h' | h
    · rcases Bool.or_eq_true_iff.mp h' with h'' | h
      · rcases Bool.or_eq_true_iff.mp h'' with h | h
        · by_cases hes : resolvedExcludeSimilar o = true
          · obtain ⟨x, hxp, hxk⟩ := numberPool_keep
            rw [← hes] at hxp
            exact ⟨x, classChain_has_numberPool o g k h x hxp, fun _ => hxk⟩
          · obtain ⟨x, hx⟩ := List.exists_mem_of_ne_nil _ (numberPool_ne_nil (resolvedExcludeSimilar o))
            exact ⟨x, classChain_has_numberPool o g k h x hx, fun hc => absurd hc hes⟩
        · by_cases hes : resolvedExcludeSimilar o = true
          · obtain ⟨x, hxp, hxk⟩ := symbolPool_keep
            rw [← hes] at hxp
            exact ⟨x, classChain_has_symbolPool o g k h x hxp, fun _ => hxk⟩
          · obtain ⟨x, hx⟩ := List.exists_mem_of_ne_nil _ (symbolPool_ne_nil (resolvedExcludeSimilar o))
            exact ⟨x, classChain_has_symbolPool o g k h x hx, fun hc => absurd hc hes⟩
      · by_cases hes : resolvedExcludeSimilar o = true
        · obtain ⟨x, hxp, hxk⟩ := upperPool_keep
          rw [← hes] at hxp
          exact ⟨x, classChain_has_upperPool o g k h x hxp, fun _ => hxk⟩
        · obtain ⟨x, hx⟩ := List.exists_mem_of_ne_nil _ (upperPool_ne_nil (resolvedExcludeSimilar o))
          exact ⟨x, classChain_has_upperPool o g k h x hx, fun hc => absurd hc hes⟩
    · by_cases hes : resolvedExcludeSimilar o = true
      · obtain ⟨x, hxp, hxk⟩ := lowerPool_keep
        rw [← hes] at hxp
        exact ⟨x, classChain_has_lowerPool o g k h x hxp, fun _ => hxk⟩
      · obtain ⟨x, hx⟩ := List.exists_mem_of_ne_nil _ (lowerPool_ne_nil (resolvedExcludeSimilar o))
        exact ⟨x, classChain_has_lowerPool o g k h x hx, fun hc => absurd hc hes⟩
  obtain ⟨x, hx, hkeep⟩ := hchain
  rw [genCharset]
  split
  · next hes => exact List.ne_nil_of_mem (List.mem_filter.mpr ⟨hx, hkeep hes⟩)
  · exact List.ne_nil_of_mem hx

theorem generateBody_length (o : GeneratePasswordOptions) (g : Nat → Nat) (k : Nat) :
    ((generateBody o g k).1).length =
      reqCount o + (resolvedLength o - (reqCount o : Int)).toNat := by
  simp only [generateBody]
  rw [shuffleString_length, List.length_append, drawN_length, classChain_req_length]

theorem generateBody_mem (o : GeneratePasswordOptions) (g : Nat → Nat) (k : Nat)
    (hen : anyClassEnabled o = true) (c : Char) (hc : c ∈ (generateBody o g k).1) :
    (resolvedLowercase o = true ∧ c ∈ lowerPool (resolvedExcludeSimilar o)) ∨
    (resolvedUppercase o = true ∧ c ∈ upperPool (resolvedExcludeSimilar o)) ∨
    (resolvedNumbers o = true ∧ c ∈ numberPool (resolvedExcludeSimilar o)) ∨
    (resolvedSymbols o = true ∧ c ∈ symbolPool (resolvedExcludeSimilar o)) := by
  simp only [generateBody] at hc
  rw [shuffleString_mem] at hc
  rcases List.mem_append.mp hc with h | h
  · exact classChain_req_mem o g k c h
  · exact genCharset_mem o g k c
      (drawN_mem g (genCharset o g k) (genCharset_ne_nil o g k hen) _ _ c h)

theorem generateBody_req_mem (o : GeneratePasswordOptions) (g : Nat → Nat) (k : Nat)
    (c : Char) (hc : c ∈ (classChain o g k).2.1) : c ∈ (generateBody o g k).1 := by
  simp only [generateBody]
  rw [shuffleString_mem]
  exact List.mem_append.mpr (Or.inl hc)

theorem generateBody_hasLower (o : GeneratePasswordOptions) (g : Nat → Nat) (k : Nat)
    (hen : anyClassEnabled o = true) :
    ((generateBody o g k).1).any isLowerAlpha = resolvedLowercase o := by
  cases hl : resolvedLowercase o
  · refine List.any_eq_false.mpr fun x hx => ?_
    rcases generateBody_mem o g k hen x hx with ⟨hf, _⟩ | ⟨_, hp⟩ | ⟨_, hp⟩ | ⟨_, hp⟩
    · rw [hl] at hf; cases hf
    · simp [(upperPool_classes _ x hp).1]
    · simp [(numberPool_classes _ x hp).1]
    · simp [(symbolPool_classes _ x hp).1]
  · obtain ⟨x, hxreq, hxpool⟩ := classChain_req_has_lower o g k hl
    exact List.any_eq_true.mpr
      ⟨x, generateBody_req_mem o g k x hxreq, (lowerPool_classes _ x hxpool).1⟩

theorem generateBody_hasUpper (o : GeneratePasswordOptions) (g : Nat → Nat) (k : Nat)
    (hen : anyClassEnabled o = true) :
    ((generateBody o g k).1).any isUpperAlpha = resolvedUppercase o := by
  cases hl : resolvedUppercase o
  · refine List.any_eq_false.mpr fun x hx => ?_
    rcases generateBody_mem o g k hen x hx with ⟨_, hp⟩ | ⟨hf, _⟩ | ⟨_, hp⟩ | ⟨_, hp⟩
    · simp [(lowerPool_classes _ x hp).2.1]
    · rw [hl] at hf; cases hf
    · simp [(numberPool_classes _ x hp).2.1]
    · simp [(symbolPool_classes _ x hp).2.1]
  · obtain ⟨x, hxreq, hxpool⟩ := classChain_req_has_upper o g k hl
    exact List.any_eq_true.mpr
      ⟨x, generateBody_req_mem o g k x hxreq, (upperPool_classes _ x hxpool).2.1⟩

theorem generateBody_hasNumber (o : GeneratePasswordOptions) (g : Nat → Nat) (k : Nat)
    (hen : anyClassEnabled o = true) :
    ((generateBody o g k).1).any isDigitChar = resolvedNumbers o := by
  cases hl : resolvedNumbers o
  · refine List.any_eq_false.mpr fun x hx => ?_
    rcases generateBody_mem o g k hen x hx with ⟨_, hp⟩ | ⟨_, hp⟩ | ⟨hf, _⟩ | ⟨_, hp⟩
    · simp [(lowerPool_classes _ x hp).2.2.1]
    · simp [(upperPool_classes _ x hp).2.2.1]
    · rw [hl] at hf; cases hf
    · simp [(symbolPool_classes _ x hp).2.2.1]
  · obtain ⟨x, hxreq, hxpool⟩ := classChain_req_has_number o g k hl
    exact List.any_eq_true.mpr
      ⟨x, generateBody_req_mem o g k x hxreq, (numberPool_classes _ x hxpool).2.2.1⟩

theorem generateBody_hasSymbol (o : GeneratePasswordOptions) (g : Nat → Nat) (k : Nat)
    (hen : anyClassEnabled o = true) :
    ((generateBody o g k).1).any isSymbolChar = resolvedSymbols o := by
  cases hl : resolvedSymbols o
  · refine List.any_eq_false.mpr fun x hx => ?_
    rcases generateBody_mem o g k hen x hx with ⟨_, hp⟩ | ⟨_, hp⟩ | ⟨_, hp⟩ | ⟨hf, _⟩
    · simp [(lowerPool_classes _ x hp).2.2.2]
    · simp [(upperPool_classes _ x hp).2.2.2]
    · simp [(numberPool_classes _ x hp).2.2.2]
    · rw [hl] at hf; cases hf
  · obtain ⟨x, hxreq, hxpool⟩ := classChain_req_has_symbol o g k hl
    exact List.any_eq_true.mpr
      ⟨x, generateBody_req_mem o g k x hxreq, (symbolPool_classes _ x hxpool).2.2.2⟩

theorem generateBody_charsetSize (o : GeneratePasswordOptions) (g : Nat → Nat) (k : Nat)
    (hen : anyClassEnabled o = true) :
    charsetSize (generateBody o g k).1 = optionCharsetSize o := by
  rw [charsetSize, optionCharsetSize, generateBody_hasLower o g k hen,
    generateBody_hasUpper o g k hen, generateBody_hasNumber o g k hen,
    generateBody_hasSymbol o g k hen]

theorem anyClassEnabled_eq (o : GeneratePasswordOptions) :
    anyClassEnabled o = !allClassesDisabled o := by
  rw [anyClassEnabled, allClassesDisabled]
  cases resolvedNumbers o <;> cases resolvedSymbols o <;> cases resolvedUppercase o <;>
    cases resolvedLowercase o <;> rfl

/-- Validation passes exactly on valid options, and then `generatePassword`
returns the success path. -/
theorem generatePassword_ok (o : GeneratePasswordOptions) (g : Nat → Nat) (k : Nat)
    (h4 : 4 ≤ resolvedLength o) (hen : anyClassEnabled o = true) :
    generatePassword o g k = .ok (generateBody o g k) := by
  rw [generatePassword, if_neg (by omega), if_neg]
  have := anyClassEnabled_eq o
  rw [hen] at this
  intro hcon
  rw [allClassesDisabled] at this
  rw [hcon] at this
  cases this

/-! ## Claim C6 — generated length -/

theorem reqCount_le_four (o : GeneratePasswordOptions) : reqCount o ≤ 4 := by
  rw [reqCount]
  split_ifs <;> omega

/-- C6, confirmed: for valid options the generated string has exactly the
requested length (the required characters plus `length − requiredCount`
filler characters, preserved by the shuffle). -/
theorem claim_C6_generated_length (o : GeneratePasswordOptions) (g : Nat → Nat) (k : Nat)
    (h4 : 4 ≤ resolvedLength o) (hen : anyClassEnabled o = true) :
    ∃ s k2, generatePassword o g k = Except.ok (s, k2) ∧
      s.length = (resolvedLength o).toNat := by
  refine ⟨(generateBody o g k).1, (generateBody o g k).2, by rw [generatePassword_ok o g k h4 hen], ?_⟩
  rw [generateBody_length]
  have := reqCount_le_four o
  omega

/-- C6 witness: the default options (length 12) with an arbitrary stream. -/
theorem claim_C6_witness :
    4 ≤ resolvedLength {} ∧ anyClassEnabled {} = true ∧
    ∃ s k2, generatePassword {} (fun _ => 0) 0 = Except.ok (s, k2) ∧
      s.length = (resolvedLength {}).toNat :=
  ⟨by decide, by decide, claim_C6_generated_length {} (fun _ => 0) 0 (by decide) (by decide)⟩

/-! ## Claim C7 — validation order and failure modes -/

/-- C7, corrected: the two validations run in source order, so `InvalidLength`
fires exactly on `length < 4` and `NoCharacterClassSelected` exactly on valid
length with all classes disabled; all other option records yield a string. -/
theorem claim_C7_validation (o : GeneratePasswordOptions) (g : Nat → Nat) (k : Nat) :
    (resolvedLength o < 4 → generatePassword o g k = .error .invalidLength) ∧
    (4 ≤ resolvedLength o → allClassesDisabled o = true →
      generatePassword o g k = .error .noCharacterClassSelected) ∧
    (4 ≤ resolvedLength o → allClassesDisabled o = false →
      ∃ s k2, generatePassword o g k = .ok (s, k2)) := by
  refine ⟨fun h => by rw [generatePassword, if_pos h], fun h4 hd => ?_, fun h4 hd => ?_⟩
  · rw [generatePassword, if_neg (by omega), if_pos]
    rw [allClassesDisabled] at hd
    exact hd
  · have hen : anyClassEnabled o = true := by rw [anyClassEnabled_eq, hd]; rfl
    exact ⟨(generateBody o g k).1, (generateBody o g k).2, by rw [generatePassword_ok o g k h4 hen]⟩

/-- C7 counterexample: with `length = 3` and every class disabled, the call
fails with `InvalidLength` — not with `NoCharacterClassSelected` as the
claim's "exactly when all classes are false" requires. -/
theorem claim_C7_counterexample :
    generatePassword
        { length := some 3, numbers := some false, symbols := some false,
          uppercase := some false, lowercase := some false } (fun _ => 0) 0 =
      .error .invalidLength ∧
    allClassesDisabled
        { length := some 3, numbers := some false, symbols := some false,
          uppercase := some false, lowercase := some false } = true ∧
    Except.error (α := List Char × Nat) GenError.invalidLength ≠
      Except.error (α := List Char × Nat) GenError.noCharacterClassSelected := by
  refine ⟨by rw [generatePassword, if_pos (by decide)], by decide, by simp⟩

/-- C7 witness: both failure modes, at `length = 3` and at valid length with
all classes disabled. -/
theorem claim_C7_witness :
    generatePassword { length := some 3 } (fun _ => 0) 0 = .error .invalidLength ∧
    generatePassword
        { numbers := some false, symbols := some false, uppercase := some false,
          lowercase := some false } (fun _ => 0) 0 = .error .noCharacterClassSelected ∧
    (∃ s k2, generatePassword {} (fun _ => 0) 0 = .ok (s, k2)) :=
  ⟨(claim_C7_validation _ _ 0).1 (by decide),
   (claim_C7_validation _ _ 0).2.1 (by decide) (by decide),
   (claim_C7_validation _ _ 0).2.2 (by decide) (by decide)⟩

/-! ## Claim C8 — excludeSimilar -/

theorem lowerPool_not_similar : ∀ c ∈ lowerPool true, c ∉ SIMILAR_CHARS := by decide

theorem upperPool_not_similar : ∀ c ∈ upperPool true, c ∉ SIMILAR_CHARS := by decide

theorem numberPool_not_similar : ∀ c ∈ numberPool true, c ∉ SIMILAR_CHARS := by decide

theorem symbolPool_not_similar : ∀ c ∈ symbolPool true, c ∉ SIMILAR_CHARS := by decide

/-- C8, confirmed: with `excludeSimilar`, every character of a successfully
generated password avoids all of `0 O 1 l I |` — the required characters come
from the per-class filtered pools and the filler from the combined filtered
charset. -/
theorem claim_C8_no_similar (o : GeneratePasswordOptions) (g : Nat → Nat) (k : Nat)
    (s : List Char) (k2 : Nat) (hes : resolvedExcludeSimilar o = true)
    (hok : generatePassword o g k = .ok (s, k2)) : ∀ c ∈ s, c ∉ SIMILAR_CHARS := by
  rw [generatePassword] at hok
  split at hok
  · exact absurd hok (by simp)
  next h4 =>
    split at hok
    · exact absurd hok (by simp)
    next hcond =>
      have hen : anyClassEnabled o = true := by
        rw [anyClassEnabled_eq, allClassesDisabled]
        rw [Bool.not_eq_true] at hcond
        rw [hcond]
        rfl
      have hpair : generateBody o g k = (s, k2) := by
        injection hok
      have hs : s = (generateBody o g k).1 := by rw [hpair]
      intro c hc
      rw [hs] at hc
      rcases generateBody_mem o g k hen c hc with ⟨_, hp⟩ | ⟨_, hp⟩ | ⟨_, hp⟩ | ⟨_, hp⟩ <;>
        rw [hes] at hp
      · exact lowerPool_not_similar c hp
      · exact upperPool_not_similar c hp
      · exact numberPool_not_similar c hp
      · exact symbolPool_not_similar c hp

/-- C8 witness: a concrete run with `excludeSimilar` on a fixed stream. -/
theorem claim_C8_witness :
    resolvedExcludeSimilar { length := some 8, excludeSimilar := some true } = true ∧
    generatePassword { length := some 8, excludeSimilar := some true } (fun _ => 0) 0 =
      .ok ("A2!aaaaa".toList, 15) ∧
    ∀ c ∈ "A2!aaaaa".toList, c ∉ SIMILAR_CHARS :=
  ⟨by decide, by decide,
   claim_C8_no_similar { length := some 8, excludeSimilar := some true } (fun _ => 0) 0
     "A2!aaaaa".toList 15 (by decide) (by decide)⟩

/-! ## Claim C10 — generateStrongPassword returns its first candidate -/

theorem simpleEntropyGt_eq_false (a b : List Char) (hL : a.length = b.length)
    (hcs : charsetSize a = charsetSize b) : simpleEntropyGt a b = false := by
  rw [simpleEntropyGt, hcs, hL]
  simp

theorem reduceBest_eq_self (best : List Char) (cs : List (List Char))
    (h : ∀ c ∈ cs, simpleEntropyGt c best = false) : reduceBest best cs = best := by
  induction cs with
  | nil => rfl
  | cons c cs ih =>
    rw [reduceBest, h c (List.mem_cons_self c cs)]
    simp only [Bool.false_eq_true, if_false]
    exact ih fun x hx => h x (List.mem_cons_of_mem c hx)

/-- C10, confirmed: under valid options every candidate has the same length
and the same present character classes, hence the same simple entropy; the
strictly-greater reduction keeps the first candidate, so
`generateStrongPassword` returns exactly the string a single
`generatePassword` call on the same stream returns. -/
theorem claim_C10_strong_equals_single (o : GeneratePasswordOptions) (g : Nat → Nat)
    (k : Nat) (h4 : 4 ≤ resolvedLength o) (hen : anyClassEnabled o = true) :
    ∃ s k1 k5, generatePassword o g k = .ok (s, k1) ∧
      generateStrongPassword o g k = .ok (s, k5) := by
  have hgen : ∀ k', generatePassword o g k' = .ok (generateBody o g k') := fun k' =>
    generatePassword_ok o g k' h4 hen
  have hkey : ∀ k1 k2 : Nat,
      simpleEntropyGt (generateBody o g k1).1 (generateBody o g k2).1 = false := fun k1 k2 =>
    simpleEntropyGt_eq_false _ _ (by rw [generateBody_length, generateBody_length])
      (by rw [generateBody_charsetSize o g k1 hen, generateBody_charsetSize o g k2 hen])
  have hred : ∀ k0 ka kb kc kd : Nat,
      reduceBest (generateBody o g k0).1
        [(generateBody o g ka).1, (generateBody o g kb).1,
         (generateBody o g kc).1, (generateBody o g kd).1] = (generateBody o g k0).1 := by
    intro k0 ka kb kc kd
    refine reduceBest_eq_self _ _ fun c hc => ?_
    simp only [List.mem_cons, List.not_mem_nil, or_false] at hc
    rcases hc with rfl | rfl | rfl | rfl
    · exact hkey _ _
    · exact hkey _ _
    · exact hkey _ _
    · exact hkey _ _
  refine ⟨(generateBody o g k).1, (generateBody o g k).2,
    (generateBody o g (generateBody o g (generateBody o g (generateBody o g
      (generateBody o g k).2).2).2).2).2, ?_, ?_⟩
  · rw [hgen k]
  · simp only [generateStrongPassword, hgen]
    rw [hred]

/-! ## Claim C9 — monotonicity under appended characters -/

theorem char_ranges_disjoint (c : Char) :
    (isLowerAlpha c = true → isUpperAlpha c = false ∧ isDigitChar c = false) ∧
    (isUpperAlpha c = true → isLowerAlpha c = false ∧ isDigitChar c = false) ∧
    (isDigitChar c = true → isLowerAlpha c = false ∧ isUpperAlpha c = false) := by
  refine ⟨fun h => ⟨?_, ?_⟩, fun h => ⟨?_, ?_⟩, fun h => ⟨?_, ?_⟩⟩
  all_goals
    rw [Bool.eq_false_iff]
    intro hcon
    simp only [isLowerAlpha, isUpperAlpha, isDigitChar, Bool.and_eq_true,
      decide_eq_true_eq] at h hcon
    omega

theorem getCharType_beq_lower (c : Char) :
    (getCharType c == CharType.lower) = isLowerAlpha c := by
  rw [getCharType]
  by_cases h1 : isLowerAlpha c = true
  · rw [if_pos h1, h1]; rfl
  · rw [if_neg h1, Bool.eq_false_iff.mpr h1]
    split_ifs <;> rfl

theorem getCharType_beq_upper (c : Char) :
    (getCharType c == CharType.upper) = isUpperAlpha c := by
  rw [getCharType]
  by_cases h1 : isLowerAlpha c = true
  · rw [if_pos h1, ((char_ranges_disjoint c).1 h1).1]; rfl
  · rw [if_neg h1]
    by_cases h2 : isUpperAlpha c = true
    · rw [if_pos h2, h2]; rfl
    · rw [if_neg h2, Bool.eq_false_iff.mpr h2]
      split_ifs <;> rfl

theorem getCharType_beq_number (c : Char) :
    (getCharType c == CharType.number) = isDigitChar c := by
  rw [getCharType]
  by_cases h1 : isLowerAlpha c = true
  · rw [if_pos h1, ((char_ranges_disjoint c).1 h1).2]; rfl
  · rw [if_neg h1]
    by_cases h2 : isUpperAlpha c = true
    · rw [if_pos h2, ((char_ranges_disjoint c).2.1 h2).2]; rfl
    · rw [if_neg h2]
      by_cases h3 : isDigitChar c = true
      · rw [if_pos h3, h3]; rfl
      · rw [if_neg h3, Bool.eq_false_iff.mpr h3]; rfl

theorem getCharType_beq_symbol (c : Char) :
    (getCharType c == CharType.symbol) = isSymbolChar c := by
  rw [getCharType, isSymbolChar]
  by_cases h1 : isLowerAlpha c = true
  · rw [if_pos h1, h1]; rfl
  · rw [if_neg h1, Bool.eq_false_iff.mpr h1]
    by_cases h2 : isUpperAlpha c = true
    · rw [if_pos h2, h2]; rfl
    · rw [if_neg h2, Bool.eq_false_iff.mpr h2]
      by_cases h3 : isDigitChar c = true
      · rw [if_pos h3, h3]; rfl
      · rw [if_neg h3, Bool.eq_false_iff.mpr h3]; rfl

theorem classPresent_lower (p : List Char) :
    classPresent p CharType.lower = p.any isLowerAlpha := by
  rw [classPresent]
  induction p with
  | nil => rfl
  | cons c p ih => rw [List.any_cons, List.any_cons, ih, getCharType_beq_lower]

theorem classPresent_upper (p : List Char) :
    classPresent p CharType.upper = p.any isUpperAlpha := by
  rw [classPresent]
  induction p with
  | nil => rfl
  | cons c p ih => rw [List.any_cons, List.any_cons, ih, getCharType_beq_upper]

theorem classPresent_number (p : List Char) :
    classPresent p CharType.number = p.any isDigitChar := by
  rw [classPresent]
  induction p with
  | nil => rfl
  | cons c p ih => rw [List.any_cons, List.any_cons, ih, getCharType_beq_number]

theorem classPresent_symbol (p : List Char) :
    classPresent p CharType.symbol = p.any isSymbolChar := by
  rw [classPresent]
  induction p with
  | nil => rfl
  | cons c p ih => rw [List.any_cons, List.any_cons, ih, getCharType_beq_symbol]

/-- Appending characters whose classes are already present leaves every
class-presence flag unchanged. -/
theorem appendedFlags (p s : List Char) (happ : appendedFromPresentClasses p s = true) :
    ((p ++ s).any isLowerAlpha = p.any isLowerAlpha) ∧
    ((p ++ s).any isUpperAlpha = p.any isUpperAlpha) ∧
    ((p ++ s).any isDigitChar = p.any isDigitChar) ∧
    ((p ++ s).any isSymbolChar = p.any isSymbolChar) := by
  have htrans : ∀ c ∈ s, classPresent p (getCharType c) = true := by
    rw [appendedFromPresentClasses, List.all_eq_true] at happ
    exact happ
  refine ⟨?_, ?_, ?_, ?_⟩
  · rw [List.any_append]
    cases hp : p.any isLowerAlpha
    · have hsf : s.any isLowerAlpha = false := by
        refine List.any_eq_false.mpr fun c hc hq => ?_
        have h := htrans c hc
        rw [getCharType, if_pos hq, classPresent_lower, hp] at h
        cases h
      rw [hsf]
      rfl
    · rfl
  · rw [List.any_append]
    cases hp : p.any isUpperAlpha
    · have hsf : s.any isUpperAlpha = false := by
        refine List.any_eq_false.mpr fun c hc hq => ?_
        have h := htrans c hc
        have hnl : isLowerAlpha c = false := ((char_ranges_disjoint c).2.1 hq).1
        rw [getCharType, if_neg (by rw [hnl]; exact Bool.false_ne_true), if_pos hq,
          classPresent_upper, hp] at h
        cases h
      rw [hsf]
      rfl
    · rfl
  · rw [List.any_append]
    cases hp : p.any isDigitChar
    · have hsf : s.any isDigitChar = false := by
        refine List.any_eq_false.mpr fun c hc hq => ?_
        have h := htrans c hc
        have hnl : isLowerAlpha c = false := ((char_ranges_disjoint c).2.2 hq).1
        have hnu : isUpperAlpha c = false := ((char_ranges_disjoint c).2.2 hq).2
        rw [getCharType, if_neg (by rw [hnl]; exact Bool.false_ne_true),
          if_neg (by rw [hnu]; exact Bool.false_ne_true), if_pos hq,
          classPresent_number, hp] at h
        cases h
      rw [hsf]
      rfl
    · rfl
  · rw [List.any_append]
    cases hp : p.any isSymbolChar
    · have hsf : s.any isSymbolChar = false := by
        refine List.any_eq_false.mpr fun c hc hq => ?_
        have h := htrans c hc
        have hall : isLowerAlpha c = false ∧ isUpperAlpha c = false ∧ isDigitChar c = false := by
          rw [isSymbolChar] at hq
          simp only [Bool.not_eq_true', Bool.or_eq_false_iff] at hq
          exact ⟨hq.1.1, hq.1.2, hq.2⟩
        rw [getCharType, if_neg (by rw [hall.1]; exact Bool.false_ne_true),
          if_neg (by rw [hall.2.1]; exact Bool.false_ne_true),
          if_neg (by rw [hall.2.2]; exact Bool.false_ne_true),
          classPresent_symbol, hp] at h
        cases h
      rw [hsf]
      rfl
    · rfl

theorem analyzePassword_isCommon (p : List Char) :
    (analyzePassword p).isCommonPassword = isCommonPassword p := rfl

theorem analyzePassword_length (p : List Char) : (analyzePassword p).length = p.length := rfl

theorem analyzePassword_entGe40 (p : List Char) :
    (analyzePassword p).entropyGe40 = entropyGe p 40 := rfl

theorem analyzePassword_entGe60 (p : List Char) :
    (analyzePassword p).entropyGe60 = entropyGe p 60 := rfl

theorem analyzePassword_entGe80 (p : List Char) :
    (analyzePassword p).entropyGe80 = entropyGe p 80 := rfl

theorem analyzePassword_variety (p : List Char) :
    (analyzePassword p).varietyScore =
      (if p.any isUpperAlpha then 1 else 0) + (if p.any isLowerAlpha then 1 else 0) +
      (if p.any isDigitChar then 1 else 0) + (if p.any isSymbolChar then 1 else 0) := rfl

theorem entropyGe_mono (p q : List Char) (t : Nat) (hcs : charsetSize q = charsetSize p)
    (hlen : p.length ≤ q.length) (h : entropyGe p t = true) : entropyGe q t = true := by
  rw [entropyGe, Bool.and_eq_true] at h ⊢
  obtain ⟨h1, h2⟩ := h
  have hne : charsetSize p ≠ 0 := by
    intro h0
    rw [h0] at h1
    cases h1
  refine ⟨by rw [hcs]; exact h1, ?_⟩
  rw [decide_eq_true_eq] at h2 ⊢
  rw [hcs]
  calc 2 ^ t ≤ charsetSize p ^ p.length := h2
    _ ≤ charsetSize p ^ q.length :=
      Nat.pow_le_pow_right (Nat.one_le_iff_ne_zero.mpr hne) hlen

theorem ite_le_ite (P Q : Prop) [Decidable P] [Decidable Q] (h : P → Q) (v : ℚ)
    (hv : 0 ≤ v) : (if P then v else 0) ≤ if Q then v else 0 := by
  split_ifs with h1 h2
  · exact le_rfl
  · exact absurd (h h1) h2
  · exact hv
  · exact le_rfl

theorem calculateScore_nonneg (a : PasswordAnalysis) (p : List Char) :
    0 ≤ calculateScore a p := by
  rw [calculateScore]
  split
  · exact le_rfl
  · exact le_ratMax_left 0 _

/-- C9, corrected: appending characters from classes already present, with
both pattern detectors unchanged, never lowers the score — provided the
longer password is not itself in the common-password lexicon (the missing
hypothesis the counterexample forces). -/
theorem claim_C9_monotone_not_common (p s : List Char)
    (happ : appendedFromPresentClasses p s = true)
    (hrep : hasRepeatingPatterns p = hasRepeatingPatterns (p ++ s))
    (hseq : hasSequentialPattern p = hasSequentialPattern (p ++ s))
    (hcom : isCommonPassword (p ++ s) = false) :
    (checkPassword p).score ≤ (checkPassword (p ++ s)).score := by
  simp only [checkPassword]
  by_cases hc1 : isCommonPassword p = true
  · have h1 : calculateScore (analyzePassword p) p = 0 := by
      rw [calculateScore, if_pos (by rw [analyzePassword_isCommon]; exact hc1)]
    rw [h1]
    exact calculateScore_nonneg _ _
  · obtain ⟨hfl, hfu, hfn, hfs⟩ := appendedFlags p s happ
    have hcs : charsetSize (p ++ s) = charsetSize p := by
      rw [charsetSize, charsetSize, hfl, hfu, hfn, hfs]
    have hlen : p.length ≤ (p ++ s).length := by
      rw [List.length_append]
      omega
    rw [calculateScore, calculateScore,
      if_neg (show ¬((analyzePassword p).isCommonPassword = true) by
        rw [analyzePassword_isCommon]; exact hc1),
      if_neg (show ¬((analyzePassword (p ++ s)).isCommonPassword = true) by
        rw [analyzePassword_isCommon, hcom]; exact Bool.false_ne_true)]
    simp only [analyzePassword_length, analyzePassword_variety, analyzePassword_entGe40,
      analyzePassword_entGe60, analyzePassword_entGe80, hfl, hfu, hfn, hfs, ← hrep, ← hseq]
    rw [ratMax_eq_max, ratMax_eq_max, ratMin_eq_min, ratMin_eq_min]
    have t1 : (if 8 ≤ p.length then (1:ℚ) else 0) ≤
        (if 8 ≤ (p ++ s).length then (1:ℚ) else 0) :=
      ite_le_ite _ _ (fun h => by rw [List.length_append]; omega) 1 (by norm_num)
    have t2 : (if 12 ≤ p.length then (1:ℚ) else 0) ≤
        (if 12 ≤ (p ++ s).length then (1:ℚ) else 0) :=
      ite_le_ite _ _ (fun h => by rw [List.length_append]; omega) 1 (by norm_num)
    have t3 : (if 16 ≤ p.length then (1/2:ℚ) else 0) ≤
        (if 16 ≤ (p ++ s).length then (1/2:ℚ) else 0) :=
      ite_le_ite _ _ (fun h => by rw [List.length_append]; omega) (1/2) (by norm_num)
    have t4 : (if entropyGe p 40 = true then (1/2:ℚ) else 0) ≤
        (if entropyGe (p ++ s) 40 = true then (1/2:ℚ) else 0) :=
      ite_le_ite _ _ (entropyGe_mono p (p ++ s) 40 hcs hlen) (1/2) (by norm_num)
    have t5 : (if entropyGe p 60 = true then (1/2:ℚ) else 0) ≤
        (if entropyGe (p ++ s) 60 = true then (1/2:ℚ) else 0) :=
      ite_le_ite _ _ (entropyGe_mono p (p ++ s) 60 hcs hlen) (1/2) (by norm_num)
    have t6 : (if entropyGe p 80 = true then (1/2:ℚ) else 0) ≤
        (if entropyGe (p ++ s) 80 = true then (1/2:ℚ) else 0) :=
      ite_le_ite _ _ (entropyGe_mono p (p ++ s) 80 hcs hlen) (1/2) (by norm_num)
    apply max_le_max le_rfl
    apply min_le_min le_rfl
    rw [div_le_div_iff_of_pos_right (by norm_num : (0:ℚ) < 2), Int.cast_le]
    apply Int.floor_le_floor
    have hstep : ∀ x y : ℚ, x ≤ y → x * 2 + 1/2 ≤ y * 2 + 1/2 := fun x y h => by linarith
    apply hstep
    linarith [t1, t2, t3, t4, t5, t6]

/-- C9 counterexample: `"administrato"` (score 2.5) extended by the lowercase
`r` — a class already present, with both detectors unchanged (false) — gives
`"administrator"`, a common password scoring 0. -/
theorem claim_C9_counterexample :
    appendedFromPresentClasses "administrato".toList "r".toList = true ∧
    hasRepeatingPatterns "administrato".toList =
      hasRepeatingPatterns ("administrato".toList ++ "r".toList) ∧
    hasSequentialPattern "administrato".toList =
      hasSequentialPattern ("administrato".toList ++ "r".toList) ∧
    (checkPassword ("administrato".toList ++ "r".toList)).score <
      (checkPassword "administrato".toList).score := by
  have ha : analyzePassword "administrato".toList =
      { length := 12, hasUppercase := false, hasLowercase := true, hasNumbers := false,
        hasSymbols := false, entropyGe40 := true, entropyGe60 := false, entropyGe80 := false,
        entropyLt40 := false, isCommonPassword := false, varietyScore := 1 } := by decide
  have hr : hasRepeatingPatterns "administrato".toList = false := by decide
  have hs : hasSequentialPattern "administrato".toList = false := by decide
  have hsc1 : (checkPassword "administrato".toList).score = 5/2 := by
    simp only [checkPassword]
    rw [ha]
    simp only [calculateScore, hr, hs]
    norm_num [ratMax, ratMin, jsRound]
  have hcm : (analyzePassword ("administrato".toList ++ "r".toList)).isCommonPassword = true := by
    decide
  have hsc2 : (checkPassword ("administrato".toList ++ "r".toList)).score = 0 := by
    simp only [checkPassword]
    rw [calculateScore, if_pos hcm]
  refine ⟨by decide, by decide, by decide, ?_⟩
  rw [hsc1, hsc2]
  norm_num

/-- C9 witness: the same base password extended by another in-class character
(`"administratoo"`), which is not common; the amended monotonicity applies. -/
theorem claim_C9_witness :
    appendedFromPresentClasses "administrato".toList "o".toList = true ∧
    hasRepeatingPatterns "administrato".toList =
      hasRepeatingPatterns ("administrato".toList ++ "o".toList) ∧
    hasSequentialPattern "administrato".toList =
      hasSequentialPattern ("administrato".toList ++ "o".toList) ∧
    isCommonPassword ("administrato".toList ++ "o".toList) = false ∧
    (checkPassword "administrato".toList).score ≤
      (checkPassword ("administrato".toList ++ "o".toList)).score :=
  ⟨by decide, by decide, by decide, by decide,
   claim_C9_monotone_not_common "administrato".toList "o".toList
     (by decide) (by decide) (by decide) (by decide)⟩

/-- C10 witness: default options on a fixed stream. -/
theorem claim_C10_witness :
    4 ≤ resolvedLength {} ∧ anyClassEnabled {} = true ∧
    ∃ s k1 k5, generatePassword {} (fun _ => 0) 0 = .ok (s, k1) ∧
      generateStrongPassword {} (fun _ => 0) 0 = .ok (s, k5) :=
  ⟨by decide, by decide,
   claim_C10_strong_equals_single {} (fun _ => 0) 0 (by decide) (by decide)⟩
